import Mathlib

/-!
Verification of the Sailfin bootstrap compiler core against its specification.

The development shallowly embeds the relevant parts of the compiler:

* the self-hosted lexer (src/sailfin_lexer.py),
* the PLY-based bootstrap lexer and token gluing (src/bootstrap/lexer.py,
  src/bootstrap/parser.py),
* the recursive-descent expression parser (src/bootstrap/parser.py),
* the Python code generator fragment relevant to the claims
  (src/bootstrap/code_generator.py, src/bootstrap/utils.py),
* the AST validator fragment (src/bootstrap/validator.py),
* the module loader (src/bootstrap/module_loader.py).

Python machine state (mutable attributes, the import set, the code buffer)
is passed explicitly; fallible code returns Except; the per-run random hex
strings drawn from uuid.uuid4().hex are modelled as an explicit stream so
that run-to-run nondeterminism becomes a quantified input.
-/

namespace Sailfin

/-- Does the first list occur as a prefix of the second? -/
def listStartsWith : List Char → List Char → Bool
  | [], _ => true
  | _ :: _, [] => false
  | a :: as, b :: bs => a = b && listStartsWith as bs

/-- Does the first list occur contiguously inside the second? -/
def listOccursIn (needle : List Char) : List Char → Bool
  | [] => listStartsWith needle []
  | b :: bs => listStartsWith needle (b :: bs) || listOccursIn needle bs

/-- Substring test on strings via the underlying character lists
(Python in-operator on str). -/
def strContains (hay needle : String) : Bool :=
  listOccursIn needle.toList hay.toList

/-- Python str.lower for the ASCII identifiers that occur in the compiler. -/
def pyLower (s : String) : String := String.mk (s.toList.map Char.toLower)

/-! ## Part 1: the self-hosted lexer, src/sailfin_lexer.py

A line-for-line embedding of lex(source).  The accidental bracketing of the
comment conditions, for example
((((c == "/") and pos) + 1) < len(source)) and (source[pos + 1] == "/"),
is translated with Python semantics: (c == "/") and pos evaluates to pos
when c is "/" and to False (numerically 0) otherwise, after which 1 is
added; the subsequent index source[pos + 1] is only bounds-checked by that
arithmetic, so it can raise IndexError. -/

namespace SelfLexer

/-- Token of the self-hosted lexer: type, value and line number. -/
structure Tok where
  type : String
  value : String
  lineno : Nat
deriving Repr, DecidableEq

/-- lookupReserved from src/sailfin_lexer.py. -/
def lookupReserved (word : String) : String :=
  if word = "fn" then "Fn"
  else if word = "struct" then "Struct"
  else if word = "interface" then "Interface"
  else if word = "let" then "Let"
  else if word = "mut" then "Mut"
  else if word = "if" then "If"
  else if word = "else" then "Else"
  else if word = "while" then "While"
  else if word = "for" then "For"
  else if word = "return" then "Return"
  else if word = "print" then "Print"
  else if word = "implements" then "Implements"
  else if word = "import" then "Import"
  else if word = "export" then "Export"
  else if word = "module" then "Module"
  else "IDENTIFIER"

/-- isDigit helper nested in lex. -/
def isDigit (c : Char) : Bool := ("0" : String).front ≤ c && c ≤ ("9" : String).front

/-- isLetter helper nested in lex. -/
def isLetter (c : Char) : Bool :=
  (("a" : String).front ≤ c && c ≤ ("z" : String).front) ||
  (("A" : String).front ≤ c && c ≤ ("Z" : String).front)

/-- isWhitespace helper nested in lex (space, tab, carriage return). -/
def isWhitespace (c : Char) : Bool := c = ' ' || c = '\t' || c = '\r'

/-- Index of the first position at or after pos whose character fails p
(the while loops of lex that advance pos while p holds).  fuel at least
src.length - pos makes the recursion complete; all call sites pass
src.length + 1. -/
def scanWhile (p : Char → Bool) (src : List Char) (fuel pos : Nat) : Nat :=
  match fuel with
  | 0 => pos
  | fuel + 1 =>
    if h : pos < src.length then
      if p (src.get ⟨pos, h⟩) then scanWhile p src fuel (pos + 1) else pos
    else pos

/-- Python slice source[a:b] as a string. -/
def slice (src : List Char) (a b : Nat) : String :=
  String.mk ((src.take b).drop a)

/-- Character at an index, with a default for the guarded reads. -/
def at_ (src : List Char) (i : Nat) : Char := src.getD i ' '

/-- The block-comment while loop of lex: advance until the two-character
terminator or until pos + 1 reaches the length, counting newlines.
Returns the final pos and lineno of the loop. -/
def blockScan (src : List Char) (fuel pos lineno : Nat) : Nat × Nat :=
  match fuel with
  | 0 => (pos, lineno)
  | fuel + 1 =>
    if _h : pos + 1 < src.length then
      if at_ src pos = '*' && at_ src (pos + 1) = '/' then (pos, lineno)
      else
        blockScan src fuel (pos + 1) (if at_ src pos = '\n' then lineno + 1 else lineno)
    else (pos, lineno)

/-- The operator cascade of lex (from the "+" branch to the end of the
loop body): the emitted token and the next position, or the
illegal-character error. -/
def lexOp (src : List Char) (pos lineno : Nat) (c : Char) :
    Except String (Tok × Nat) :=
  let two (t : String) (v : String) : Except String (Tok × Nat) :=
    .ok (⟨t, v, lineno⟩, pos + 2)
  let one (t : String) (v : String) : Except String (Tok × Nat) :=
    .ok (⟨t, v, lineno⟩, pos + 1)
  let nextIs (d : Char) : Bool := pos + 1 < src.length && at_ src (pos + 1) = d
  if c = '+' then (if nextIs '=' then two "PLUS_ASSIGN" "+=" else one "PLUS" "+")
  else if c = '-' then
    (if nextIs '=' then two "MINUS_ASSIGN" "-="
     else if nextIs '>' then two "ARROW" "->"
     else one "MINUS" "-")
  else if c = '*' then (if nextIs '=' then two "MULTIPLY_ASSIGN" "*=" else one "MULTIPLY" "*")
  else if c = '/' then (if nextIs '=' then two "DIVIDE_ASSIGN" "/=" else one "DIVIDE" "/")
  else if c = '=' then
    (if nextIs '=' then two "EQ" "=="
     else if nextIs '>' then two "FAT_ARROW" "=>"
     else one "ASSIGN" "=")
  else if c = '!' then (if nextIs '=' then two "NEQ" "!=" else one "NOT" "!")
  else if c = '<' then (if nextIs '=' then two "LEQ" "<=" else one "LT" "<")
  else if c = '>' then (if nextIs '=' then two "GEQ" ">=" else one "GT" ">")
  else if c = '(' then one "LPAREN" "("
  else if c = ')' then one "RPAREN" ")"
  else if c = '\x7b' then one "LBRACE" "\x7b"
  else if c = '\x7d' then one "RBRACE" "\x7d"
  else if c = '[' then one "LBRACKET" "["
  else if c = ']' then one "RBRACKET" "]"
  else if c = ';' then one "SEMICOLON" ";"
  else if c = ',' then one "COMMA" ","
  else if c = '.' then one "DOT" "."
  else if c = ':' then one "COLON" ":"
  else if c = '@' then one "AT" "@"
  else .error ("Illegal character at line " ++ toString lineno)

/-- One token (or skip) step dispatch of lex, driven by fuel; mirrors the
body of the while loop of lex(source) branch for branch. -/
def lexGo (src : List Char) (fuel pos lineno : Nat) (tokens : List Tok) :
    Except String (List Tok) :=
  match fuel with
  | 0 => .error "out of fuel"
  | fuel + 1 =>
    if h : pos < src.length then
      let c := src.get ⟨pos, h⟩
      if c = '\n' then
        lexGo src fuel (pos + 1) (lineno + 1) tokens
      else if isWhitespace c then
        lexGo src fuel (pos + 1) lineno tokens
      else if isDigit c then
        let p1 := scanWhile isDigit src (src.length + 1) pos
        let p2 :=
          if p1 < src.length && at_ src p1 = '.' then
            scanWhile isDigit src (src.length + 1) (p1 + 1)
          else p1
        lexGo src fuel p2 lineno (tokens ++ [⟨"NUMBER", slice src pos p2, lineno⟩])
      else if isLetter c || c = '_' then
        let p1 := scanWhile (fun d => isLetter d || isDigit d || d = '_') src
          (src.length + 1) pos
        let idText := slice src pos p1
        lexGo src fuel p1 lineno (tokens ++ [⟨lookupReserved idText, idText, lineno⟩])
      else if c = '"' then
        let start := pos + 1
        let e := scanWhile (fun d => d ≠ '"') src (src.length + 1) start
        if e ≥ src.length then .error ("Unterminated string literal at line " ++ toString lineno)
        else
          lexGo src fuel (e + 1) lineno (tokens ++ [⟨"STRING", slice src start e, lineno⟩])
      -- line comment: Python ((((c == "/") and pos) + 1) < len(source)) and
      --               (source[pos + 1] == "/")
      else if (if c = '/' then pos else 0) + 1 < src.length then
        if hin : pos + 1 < src.length then
          if src.get ⟨pos + 1, hin⟩ = '/' then
            lexGo src fuel (scanWhile (fun d => d ≠ '\n') src (src.length + 1) (pos + 2))
              lineno tokens
          -- block comment: same accidental bracketing with "*"
          else if src.get ⟨pos + 1, hin⟩ = '*' then
            let (p', line') := blockScan src (src.length + 1) (pos + 2) lineno
            lexGo src fuel (p' + 2) line' tokens
          else
            match lexOp src pos lineno c with
            | .error e => .error e
            | .ok (t, p') => lexGo src fuel p' lineno (tokens ++ [t])
        else .error "IndexError: string index out of range"
      else
        match lexOp src pos lineno c with
        | .error e => .error e
        | .ok (t, p') => lexGo src fuel p' lineno (tokens ++ [t])
    else .ok tokens

end SelfLexer

/-- lex(source) of src/sailfin_lexer.py.  Every loop iteration advances pos
by at least one, so source length plus one steps of fuel always suffice. -/
def sailfinLex (source : String) : Except String (List SelfLexer.Tok) :=
  SelfLexer.lexGo source.toList (source.length + 1) 0 1 []

/-! ## Part 2: the PLY-based bootstrap lexer, src/bootstrap/lexer.py

src/bootstrap/lexer.py defines the token rules for ply.lex.  PLY builds a
master regular expression whose alternatives are the function rules in
definition order (t_IDENTIFIER, t_NUMBER, t_STRING, t_newline, t_comment,
t_multiline_comment) followed by the string rules sorted by decreasing
regex length, so at each position the two-character operator rules apply
before their one-character prefixes; ignored characters (space and tab)
are skipped before each match.  The embedding below realizes exactly that
matching discipline as a scanner.  The actions are translated verbatim:
t_NUMBER replaces the matched text by its numeric value (the host float is
modelled by its exact decimal value), t_STRING strips the surrounding
quotes and keeps escapes raw, t_newline and t_multiline_comment advance
lineno by the number of matched newlines. -/

namespace BootLexer

/-- Value carried by a PLY token after its action ran. -/
inductive BValue where
  | num (v : ℚ)
  | str (s : String)
deriving DecidableEq, Repr

/-- Raw PLY token: type, value, current line and absolute match position. -/
structure RawTok where
  type : String
  value : BValue
  lineno : Nat
  lexpos : Nat
deriving DecidableEq, Repr

/-- First character of an identifier, regex [A-Za-z_]. -/
def identStart (c : Char) : Bool :=
  ('A' ≤ c && c ≤ 'Z') || ('a' ≤ c && c ≤ 'z') || c = '_'

/-- Later characters of an identifier, regex [A-Za-z0-9_]. -/
def identChar (c : Char) : Bool := identStart c || ('0' ≤ c && c ≤ '9')

/-- Decimal digit, regex \d. -/
def isDigit (c : Char) : Bool := '0' ≤ c && c ≤ '9'

/-- The reserved-word table of src/bootstrap/lexer.py. -/
def reservedType (word : String) : Option String :=
  if word = "fn" then some "FN"
  else if word = "lambda" then some "LAMBDA"
  else if word = "print" then some "PRINT"
  else if word = "info" then some "INFO"
  else if word = "let" then some "LET"
  else if word = "mut" then some "MUT"
  else if word = "return" then some "RETURN"
  else if word = "if" then some "IF"
  else if word = "else" then some "ELSE"
  else if word = "match" then some "MATCH"
  else if word = "const" then some "CONST"
  else if word = "async" then some "ASYNC"
  else if word = "await" then some "AWAIT"
  else if word = "import" then some "IMPORT"
  else if word = "from" then some "FROM"
  else if word = "struct" then some "STRUCT"
  else if word = "enum" then some "ENUM"
  else if word = "interface" then some "INTERFACE"
  else if word = "implements" then some "IMPLEMENTS"
  else if word = "throw" then some "THROW"
  else if word = "try" then some "TRY"
  else if word = "catch" then some "CATCH"
  else if word = "finally" then some "FINALLY"
  else if word = "for" then some "FOR"
  else if word = "while" then some "WHILE"
  else if word = "in" then some "IN"
  else if word = "test" then some "TEST"
  else if word = "assert" then some "ASSERT"
  else if word = "is" then some "IS"
  else if word = "new" then some "NEW"
  else none

/-- The t_IDENTIFIER action: underscore alone, reserved word, or plain
identifier. -/
def identType (text : String) : String :=
  if text = "_" then "UNDERSCORE"
  else (reservedType text).getD "IDENTIFIER"

/-- Numeric value of a digit string. -/
def digitsVal (l : List Char) : Nat :=
  l.foldl (fun a c => 10 * a + (c.toNat - 48)) 0

/-- The t_NUMBER action, float(text) if a dot occurs else int(text); the
host float is modelled by its exact decimal value. -/
def pyNumber (text : String) : ℚ :=
  if text.toList.contains '.' then
    match text.toList.splitOn '.' with
    | [ip, fp] => (digitsVal ip : ℚ) + (digitsVal fp : ℚ) / ((10 : ℚ) ^ fp.length)
    | _ => 0
  else (digitsVal text.toList : ℚ)

/-- List form of the Python slice source[a:b]. -/
def sliceL (src : List Char) (a b : Nat) : List Char := (src.take b).drop a

/-- Position of the closing quote of the t_STRING regex
\"([^\\\n]|(\\.))*?\" when it matches from pos (the character after the
opening quote): escapes consume two characters, a raw newline or the end
of input or an escaped newline makes the rule fail. -/
def stringEnd (src : List Char) (fuel pos : Nat) : Option Nat :=
  match fuel with
  | 0 => none
  | fuel + 1 =>
    if h : pos < src.length then
      let c := src.get ⟨pos, h⟩
      if c = '"' then some pos
      else if c = '\n' then none
      else if c = '\\' then
        if h2 : pos + 1 < src.length then
          if src.get ⟨pos + 1, h2⟩ = '\n' then none else stringEnd src fuel (pos + 2)
        else none
      else stringEnd src fuel (pos + 1)
    else none

/-- First index k at or after pos with src[k] = "*" and src[k+1] = "/",
the non-greedy search of the t_multiline_comment regex. -/
def findStarSlash (src : List Char) (fuel pos : Nat) : Option Nat :=
  match fuel with
  | 0 => none
  | fuel + 1 =>
    if _h : pos + 1 < src.length then
      if SelfLexer.at_ src pos = '*' && SelfLexer.at_ src (pos + 1) = '/' then some pos
      else findStarSlash src fuel (pos + 1)
    else none

/-- The two-character operator rules of the master regex (all applied
before their one-character prefixes because PLY sorts string rules by
decreasing regex length). -/
def twoCharOp (a b : Char) : Option (String × String) :=
  if a = '+' && b = '=' then some ("PLUS_ASSIGN", "+=")
  else if a = '-' && b = '=' then some ("MINUS_ASSIGN", "-=")
  else if a = '-' && b = '>' then some ("ARROW", "->")
  else if a = '*' && b = '=' then some ("MULTIPLY_ASSIGN", "*=")
  else if a = '/' && b = '=' then some ("DIVIDE_ASSIGN", "/=")
  else if a = '<' && b = '=' then some ("LEQ", "<=")
  else if a = '>' && b = '=' then some ("GEQ", ">=")
  else if a = '=' && b = '=' then some ("EQ", "==")
  else if a = '=' && b = '>' then some ("FAT_ARROW", "=>")
  else if a = '!' && b = '=' then some ("NEQ", "!=")
  else if a = '&' && b = '&' then some ("AND", "&&")
  else if a = '|' && b = '|' then some ("OR", "||")
  else none

/-- The one-character operator and delimiter rules. -/
def oneCharOp (c : Char) : Option String :=
  if c = '+' then some "PLUS"
  else if c = '-' then some "MINUS"
  else if c = '*' then some "MULTIPLY"
  else if c = '/' then some "DIVIDE"
  else if c = '=' then some "ASSIGN"
  else if c = '?' then some "QUESTION"
  else if c = '(' then some "LPAREN"
  else if c = ')' then some "RPAREN"
  else if c = '\x7b' then some "LBRACE"
  else if c = '\x7d' then some "RBRACE"
  else if c = '[' then some "LBRACKET"
  else if c = ']' then some "RBRACKET"
  else if c = ';' then some "SEMICOLON"
  else if c = ',' then some "COMMA"
  else if c = '.' then some "DOT"
  else if c = ':' then some "COLON"
  else if c = '@' then some "AT"
  else if c = '<' then some "LT"
  else if c = '>' then some "GT"
  else if c = '!' then some "NOT"
  else if c = '|' then some "PIPE"
  else if c = '&' then some "AMP"
  else none

/-- The PLY scanning loop over src/bootstrap/lexer.py.  Each step skips an
ignored character or matches the first applicable rule at pos. -/
def plyGo (src : List Char) (fuel pos lineno : Nat) (acc : List RawTok) :
    Except String (List RawTok) :=
  match fuel with
  | 0 => .error "out of fuel"
  | fuel + 1 =>
    if h : pos < src.length then
      let c := src.get ⟨pos, h⟩
      if c = ' ' || c = '\t' then plyGo src fuel (pos + 1) lineno acc
      else if identStart c then
        let e := SelfLexer.scanWhile identChar src (src.length + 1) pos
        let text := String.mk (sliceL src pos e)
        plyGo src fuel e lineno (acc ++ [⟨identType text, .str text, lineno, pos⟩])
      else if isDigit c then
        let p1 := SelfLexer.scanWhile isDigit src (src.length + 1) pos
        let e :=
          if SelfLexer.at_ src p1 = '.' && isDigit (SelfLexer.at_ src (p1 + 1)) then
            SelfLexer.scanWhile isDigit src (src.length + 1) (p1 + 1)
          else p1
        plyGo src fuel e lineno
          (acc ++ [⟨"NUMBER", .num (pyNumber (String.mk (sliceL src pos e))), lineno, pos⟩])
      else if c = '"' then
        match stringEnd src (src.length + 1) (pos + 1) with
        | some e =>
          plyGo src fuel (e + 1) lineno
            (acc ++ [⟨"STRING", .str (String.mk (sliceL src (pos + 1) e)), lineno, pos⟩])
        | none => .error ("Illegal character at position " ++ toString pos)
      else if c = '\n' then
        let e := SelfLexer.scanWhile (fun d => d = '\n') src (src.length + 1) pos
        plyGo src fuel e (lineno + (e - pos)) acc
      else if c = '/' && SelfLexer.at_ src (pos + 1) = '/' then
        plyGo src fuel (SelfLexer.scanWhile (fun d => d ≠ '\n') src (src.length + 1) pos) lineno acc
      else if c = '/' && SelfLexer.at_ src (pos + 1) = '*' then
        match findStarSlash src (src.length + 1) (pos + 2) with
        | some k =>
          plyGo src fuel (k + 2) (lineno + (sliceL src pos (k + 2)).count '\n') acc
        | none =>
          -- the non-greedy comment regex needs a closing */ to match at all;
          -- without one the string rules apply and "/" lexes as DIVIDE
          plyGo src fuel (pos + 1) lineno (acc ++ [⟨"DIVIDE", .str "/", lineno, pos⟩])
      else
        match twoCharOp c (SelfLexer.at_ src (pos + 1)) with
        | some (t, v) => plyGo src fuel (pos + 2) lineno (acc ++ [⟨t, .str v, lineno, pos⟩])
        | none =>
          match oneCharOp c with
          | some t =>
            plyGo src fuel (pos + 1) lineno (acc ++ [⟨t, .str (String.mk [c]), lineno, pos⟩])
          | none => .error ("Illegal character at line " ++ toString lineno)
    else .ok acc

end BootLexer

/-- The bootstrap lexer on a whole source string. -/
def plyLex (source : String) : Except String (List BootLexer.RawTok) :=
  BootLexer.plyGo source.toList (source.length + 1) 0 1 []

/-- Mirror of _compute_column in src/bootstrap/parser.py:
text.rfind("\n", 0, lexpos) + 1 as a recursion over lexpos. -/
def lineStartOf (src : List Char) : Nat → Nat
  | 0 => 0
  | p + 1 => if SelfLexer.at_ src p = '\n' then p + 1 else lineStartOf src p

/-- Column of an absolute position, _compute_column of
src/bootstrap/parser.py. -/
def computeColumn (src : List Char) (lexpos : Nat) : Nat :=
  lexpos - lineStartOf src lexpos + 1

/-- Token produced by _tokenize in src/bootstrap/parser.py. -/
structure GluedTok where
  type : String
  value : BootLexer.BValue
  lineno : Nat
  column : Nat
deriving DecidableEq, Repr

/-- Mirror of _tokenize: glue the PLY tokens with their computed columns
and append the EOF sentinel. -/
def bootTokenize (source : String) : Except String (List GluedTok) :=
  (plyLex source).map (fun toks =>
    toks.map (fun t =>
      GluedTok.mk t.type t.value t.lineno (computeColumn source.toList t.lexpos)) ++
    [⟨"EOF", .str "<eof>", (match toks.getLast? with | some t => t.lineno | none => 1), 0⟩])

/-- Index after the k-th newline of the list (0 when k is 0). -/
def afterNewlines : List Char → Nat → Nat
  | _, 0 => 0
  | [], _ + 1 => 0
  | c :: cs, k + 1 =>
    1 + (if c = '\n' then afterNewlines cs k else afterNewlines cs (k + 1))

/-- Absolute index of the character at 1-based column col of 1-based line
line of the source. -/
def posOf (src : List Char) (line col : Nat) : Nat :=
  afterNewlines src (line - 1) + (col - 1)

/-- Contiguous substring of the source of the given length beginning at
character position col on line line. -/
def substrAt (source : String) (line col len : Nat) : String :=
  String.mk (BootLexer.sliceL source.toList (posOf source.toList line col)
    (posOf source.toList line col + len))

/-! ## Part 3: the recursive-descent expression parser,
src/bootstrap/parser.py, class _SailParser

The expression grammar from _parse_expression down to _parse_primary is
embedded over the glued token stream, together with
_parse_variable_declaration for let statements.  The _TokenStream index is
passed explicitly and every parse function is driven by fuel (each source
loop iteration and recursive call consumes one unit; the concrete
theorems supply enough).  Two branches lie outside the embedded fragment
and report a distinguishing error instead of an AST: the lambda branch of
_parse_expression (FN) and the type-annotation branch (ARROW) of
_parse_variable_declaration; neither is reachable from the inputs the
claims are about. -/

namespace SailParse

/-- AST fragment of bootstrap.ast_nodes used by the embedded parser
productions. -/
inductive PAst where
  | identifier (name : String)
  | numberLit (value : BootLexer.BValue)
  | stringLit (value : BootLexer.BValue)
  | boolLit (value : Bool)
  | nullLit
  | arrayLit (elements : List PAst)
  | binary (operator : String) (left right : PAst)
  | unary (operator : String) (operand : PAst)
  | awaitE (expression : PAst)
  | call (callee : PAst) (arguments : List PAst)
  | member (object : PAst) (name : String)
  | indexE (sequence index : PAst)
  | parallel (thunks : List PAst)
  | structLit (typeName : String) (fields : List (String × PAst))

/-- VariableDeclaration of bootstrap.ast_nodes (the type annotation is
outside the fragment and always absent here). -/
structure PVarDecl where
  name : String
  mutable : Bool
  initializer : Option PAst

/-- The EOF sentinel _tokenize always appends. -/
def eofTok : GluedTok := ⟨"EOF", .str "<eof>", 1, 0⟩

/-- Current token of the stream (peek clamps to the last token, which is
the EOF sentinel). -/
def curTok (toks : List GluedTok) (i : Nat) : GluedTok :=
  toks.getD i ((toks.getLast?).getD eofTok)

/-- _TokenStream.match: consume the current token when its type is in the
given set; advance stops at EOF. -/
def tsMatch (toks : List GluedTok) (i : Nat) (types : List String) :
    Option (GluedTok × Nat) :=
  let t := curTok toks i
  if types.contains t.type then some (t, if t.type = "EOF" then i else i + 1)
  else none

/-- _TokenStream.check. -/
def tsCheck (toks : List GluedTok) (i : Nat) (ttype : String) : Bool :=
  (curTok toks i).type = ttype

/-- String payload of a token value (identifier names; a numeric payload
never reaches these reads in the embedded productions). -/
def asStr : BootLexer.BValue → String
  | .str s => s
  | .num _ => ""

/-- The parallel-keyword test of the _parse_call loop. -/
def isParallelIdent : PAst → Bool
  | .identifier name => name = "parallel"
  | _ => false

/-- _looks_like_struct_literal. -/
def looksLikeStructLiteral (toks : List GluedTok) (i : Nat) : Bool :=
  let first := curTok toks (i + 1)
  if first.type = "RBRACE" then true
  else if first.type ≠ "IDENTIFIER" then false
  else (curTok toks (i + 2)).type = "COLON"

mutual

/-- _parse_expression. -/
def parseExpression (toks : List GluedTok) (fuel i : Nat) : Except String (PAst × Nat) :=
  match fuel with
  | 0 => .error "out of fuel"
  | fuel + 1 =>
    if tsCheck toks i "FN" then .error "fragment: lambda expressions not embedded"
    else parseLogicalOr toks fuel i
termination_by structural fuel

/-- _parse_logical_or. -/
def parseLogicalOr (toks : List GluedTok) (fuel i : Nat) : Except String (PAst × Nat) :=
  match fuel with
  | 0 => .error "out of fuel"
  | fuel + 1 => do
    let (e, i) ← parseLogicalAnd toks fuel i
    orLoop toks fuel i e
termination_by structural fuel

/-- The while loop of _parse_logical_or. -/
def orLoop (toks : List GluedTok) (fuel i : Nat) (e : PAst) : Except String (PAst × Nat) :=
  match fuel with
  | 0 => .error "out of fuel"
  | fuel + 1 =>
    match tsMatch toks i ["OR"] with
    | some (_, i) => do
      let (r, i) ← parseLogicalAnd toks fuel i
      orLoop toks fuel i (.binary "||" e r)
    | none => .ok (e, i)
termination_by structural fuel

/-- _parse_logical_and. -/
def parseLogicalAnd (toks : List GluedTok) (fuel i : Nat) : Except String (PAst × Nat) :=
  match fuel with
  | 0 => .error "out of fuel"
  | fuel + 1 => do
    let (e, i) ← parseEquality toks fuel i
    andLoop toks fuel i e
termination_by structural fuel

/-- The while loop of _parse_logical_and. -/
def andLoop (toks : List GluedTok) (fuel i : Nat) (e : PAst) : Except String (PAst × Nat) :=
  match fuel with
  | 0 => .error "out of fuel"
  | fuel + 1 =>
    match tsMatch toks i ["AND"] with
    | some (_, i) => do
      let (r, i) ← parseEquality toks fuel i
      andLoop toks fuel i (.binary "&&" e r)
    | none => .ok (e, i)
termination_by structural fuel

/-- _parse_equality. -/
def parseEquality (toks : List GluedTok) (fuel i : Nat) : Except String (PAst × Nat) :=
  match fuel with
  | 0 => .error "out of fuel"
  | fuel + 1 => do
    let (e, i) ← parseComparison toks fuel i
    eqLoop toks fuel i e
termination_by structural fuel

/-- The while loop of _parse_equality. -/
def eqLoop (toks : List GluedTok) (fuel i : Nat) (e : PAst) : Except String (PAst × Nat) :=
  match fuel with
  | 0 => .error "out of fuel"
  | fuel + 1 =>
    match tsMatch toks i ["EQ"] with
    | some (_, i) => do
      let (r, i) ← parseComparison toks fuel i
      eqLoop toks fuel i (.binary "==" e r)
    | none =>
      match tsMatch toks i ["NEQ"] with
      | some (_, i) => do
        let (r, i) ← parseComparison toks fuel i
        eqLoop toks fuel i (.binary "!=" e r)
      | none => .ok (e, i)
termination_by structural fuel

/-- _parse_comparison. -/
def parseComparison (toks : List GluedTok) (fuel i : Nat) : Except String (PAst × Nat) :=
  match fuel with
  | 0 => .error "out of fuel"
  | fuel + 1 => do
    let (e, i) ← parseTerm toks fuel i
    compLoop toks fuel i e
termination_by structural fuel

/-- The while loop of _parse_comparison: an LT, LEQ, GT or GEQ token
always continues the comparison chain with the next term, with no
try-parse for a generic type application. -/
def compLoop (toks : List GluedTok) (fuel i : Nat) (e : PAst) : Except String (PAst × Nat) :=
  match fuel with
  | 0 => .error "out of fuel"
  | fuel + 1 =>
    match tsMatch toks i ["LT"] with
    | some (_, i) => do
      let (r, i) ← parseTerm toks fuel i
      compLoop toks fuel i (.binary "<" e r)
    | none =>
      match tsMatch toks i ["LEQ"] with
      | some (_, i) => do
        let (r, i) ← parseTerm toks fuel i
        compLoop toks fuel i (.binary "<=" e r)
      | none =>
        match tsMatch toks i ["GT"] with
        | some (_, i) => do
          let (r, i) ← parseTerm toks fuel i
          compLoop toks fuel i (.binary ">" e r)
        | none =>
          match tsMatch toks i ["GEQ"] with
          | some (_, i) => do
            let (r, i) ← parseTerm toks fuel i
            compLoop toks fuel i (.binary ">=" e r)
          | none => .ok (e, i)
termination_by structural fuel

/-- _parse_term. -/
def parseTerm (toks : List GluedTok) (fuel i : Nat) : Except String (PAst × Nat) :=
  match fuel with
  | 0 => .error "out of fuel"
  | fuel + 1 => do
    let (e, i) ← parseFactor toks fuel i
    termLoop toks fuel i e
termination_by structural fuel

/-- The while loop of _parse_term. -/
def termLoop (toks : List GluedTok) (fuel i : Nat) (e : PAst) : Except String (PAst × Nat) :=
  match fuel with
  | 0 => .error "out of fuel"
  | fuel + 1 =>
    match tsMatch toks i ["PLUS"] with
    | some (_, i) => do
      let (r, i) ← parseFactor toks fuel i
      termLoop toks fuel i (.binary "+" e r)
    | none =>
      match tsMatch toks i ["MINUS"] with
      | some (_, i) => do
        let (r, i) ← parseFactor toks fuel i
        termLoop toks fuel i (.binary "-" e r)
      | none => .ok (e, i)
termination_by structural fuel

/-- _parse_factor. -/
def parseFactor (toks : List GluedTok) (fuel i : Nat) : Except String (PAst × Nat) :=
  match fuel with
  | 0 => .error "out of fuel"
  | fuel + 1 => do
    let (e, i) ← parseUnary toks fuel i
    factorLoop toks fuel i e
termination_by structural fuel

/-- The while loop of _parse_factor. -/
def factorLoop (toks : List GluedTok) (fuel i : Nat) (e : PAst) : Except String (PAst × Nat) :=
  match fuel with
  | 0 => .error "out of fuel"
  | fuel + 1 =>
    match tsMatch toks i ["MULTIPLY"] with
    | some (_, i) => do
      let (r, i) ← parseUnary toks fuel i
      factorLoop toks fuel i (.binary "*" e r)
    | none =>
      match tsMatch toks i ["DIVIDE"] with
      | some (_, i) => do
        let (r, i) ← parseUnary toks fuel i
        factorLoop toks fuel i (.binary "/" e r)
      | none => .ok (e, i)
termination_by structural fuel

/-- _parse_unary. -/
def parseUnary (toks : List GluedTok) (fuel i : Nat) : Except String (PAst × Nat) :=
  match fuel with
  | 0 => .error "out of fuel"
  | fuel + 1 =>
    match tsMatch toks i ["MINUS"] with
    | some (_, i) => do
      let (e, i) ← parseUnary toks fuel i
      .ok (.unary "-" e, i)
    | none =>
      match tsMatch toks i ["PLUS"] with
      | some (_, i) => parseUnary toks fuel i
      | none =>
        match tsMatch toks i ["NOT"] with
        | some (_, i) => do
          let (e, i) ← parseUnary toks fuel i
          .ok (.unary "!" e, i)
        | none =>
          match tsMatch toks i ["AWAIT"] with
          | some (_, i) => do
            let (e, i) ← parseUnary toks fuel i
            .ok (.awaitE e, i)
          | none => parseCall toks fuel i
termination_by structural fuel

/-- _parse_call. -/
def parseCall (toks : List GluedTok) (fuel i : Nat) : Except String (PAst × Nat) :=
  match fuel with
  | 0 => .error "out of fuel"
  | fuel + 1 => do
    let (e, i) ← parsePrimary toks fuel i
    callLoop toks fuel i e
termination_by structural fuel

/-- The postfix while loop of _parse_call: call arguments, member access,
parallel thunks, indexing and struct literals. -/
def callLoop (toks : List GluedTok) (fuel i : Nat) (e : PAst) : Except String (PAst × Nat) :=
  match fuel with
  | 0 => .error "out of fuel"
  | fuel + 1 =>
    match tsMatch toks i ["LPAREN"] with
    | some (_, i) =>
      if tsCheck toks i "RPAREN" then
        match tsMatch toks i ["RPAREN"] with
        | some (_, i) => callLoop toks fuel i (.call e [])
        | none => .error "unreachable"
      else do
        let (args, i) ← argsLoop toks fuel i
        match tsMatch toks i ["RPAREN"] with
        | some (_, i) => callLoop toks fuel i (.call e args)
        | none =>
          .error ("Expected RPAREN, found " ++ (curTok toks i).type)
    | none =>
      match tsMatch toks i ["DOT"] with
      | some (_, i) =>
        match tsMatch toks i ["IDENTIFIER", "INFO", "PRINT"] with
        | some (t, i) => callLoop toks fuel i (.member e (asStr t.value))
        | none =>
          .error ("Expected identifier after dot, found " ++ (curTok toks i).type)
      | none =>
        if isParallelIdent e && tsCheck toks i "LBRACKET" then do
          let (thunks, i) ← parseParallelThunks toks fuel i
          callLoop toks fuel i (.parallel thunks)
        else
          match tsMatch toks i ["LBRACKET"] with
          | some (_, i) => do
            let (ix, i) ← parseExpression toks fuel i
            match tsMatch toks i ["RBRACKET"] with
            | some (_, i) => callLoop toks fuel i (.indexE e ix)
            | none => .error ("Expected RBRACKET, found " ++ (curTok toks i).type)
          | none =>
            match e with
            | .identifier name =>
              if tsCheck toks i "LBRACE" && looksLikeStructLiteral toks i then do
                let (fields, i) ← parseStructFields toks fuel (i + 1)
                callLoop toks fuel i (.structLit name fields)
              else .ok (e, i)
            | _ => .ok (e, i)
termination_by structural fuel

/-- The comma-separated argument loop inside the LPAREN branch of
_parse_call (at least one argument). -/
def argsLoop (toks : List GluedTok) (fuel i : Nat) : Except String (List PAst × Nat) :=
  match fuel with
  | 0 => .error "out of fuel"
  | fuel + 1 => do
    let (a, i) ← parseExpression toks fuel i
    match tsMatch toks i ["COMMA"] with
    | some (_, i) => do
      let (rest, i) ← argsLoop toks fuel i
      .ok (a :: rest, i)
    | none => .ok ([a], i)
termination_by structural fuel

/-- _parse_parallel_thunks. -/
def parseParallelThunks (toks : List GluedTok) (fuel i : Nat) : Except String (List PAst × Nat) :=
  match fuel with
  | 0 => .error "out of fuel"
  | fuel + 1 =>
    match tsMatch toks i ["LBRACKET"] with
    | some (_, i) =>
      if tsCheck toks i "RBRACKET" then
        match tsMatch toks i ["RBRACKET"] with
        | some (_, i) => .ok ([], i)
        | none => .error "unreachable"
      else do
        let (thunks, i) ← argsLoop toks fuel i
        match tsMatch toks i ["RBRACKET"] with
        | some (_, i) => .ok (thunks, i)
        | none => .error ("Expected RBRACKET, found " ++ (curTok toks i).type)
    | none => .error ("Expected LBRACKET, found " ++ (curTok toks i).type)
termination_by structural fuel

/-- _parse_struct_literal_fields (the opening brace is already consumed). -/
def parseStructFields (toks : List GluedTok) (fuel i : Nat) :
    Except String (List (String × PAst) × Nat) :=
  match fuel with
  | 0 => .error "out of fuel"
  | fuel + 1 =>
    match tsMatch toks i ["RBRACE"] with
    | some (_, i) => .ok ([], i)
    | none =>
      match tsMatch toks i ["IDENTIFIER"] with
      | some (t, i) =>
        match tsMatch toks i ["COLON"] with
        | some (_, i) => do
          let (v, i) ← parseExpression toks fuel i
          let i := match tsMatch toks i ["COMMA"] with
            | some (_, j) => j
            | none => i
          let (rest, i) ← parseStructFields toks fuel i
          .ok ((asStr t.value, v) :: rest, i)
        | none => .error ("Expected COLON, found " ++ (curTok toks i).type)
      | none => .error ("Expected IDENTIFIER, found " ++ (curTok toks i).type)
termination_by structural fuel

/-- _parse_primary. -/
def parsePrimary (toks : List GluedTok) (fuel i : Nat) : Except String (PAst × Nat) :=
  match fuel with
  | 0 => .error "out of fuel"
  | fuel + 1 =>
    match tsMatch toks i ["NUMBER"] with
    | some (t, i) => .ok (.numberLit t.value, i)
    | none =>
      match tsMatch toks i ["STRING"] with
      | some (t, i) => .ok (.stringLit t.value, i)
      | none =>
        match tsMatch toks i ["TRUE"] with
        | some (_, i) => .ok (.boolLit true, i)
        | none =>
          match tsMatch toks i ["FALSE"] with
          | some (_, i) => .ok (.boolLit false, i)
          | none =>
            match tsMatch toks i ["NULL"] with
            | some (_, i) => .ok (.nullLit, i)
            | none =>
              match tsMatch toks i ["PRINT"] with
              | some (_, i) => .ok (.identifier "print", i)
              | none =>
                match tsMatch toks i ["INFO"] with
                | some (_, i) => .ok (.identifier "info", i)
                | none =>
                  match tsMatch toks i ["IDENTIFIER"] with
                  | some (t, i) => .ok (.identifier (asStr t.value), i)
                  | none =>
                    match tsMatch toks i ["LPAREN"] with
                    | some (_, i) => do
                      let (e, i) ← parseExpression toks fuel i
                      match tsMatch toks i ["RPAREN"] with
                      | some (_, i) => .ok (e, i)
                      | none =>
                        .error ("Expected RPAREN, found " ++ (curTok toks i).type)
                    | none =>
                      match tsMatch toks i ["LBRACKET"] with
                      | some (_, i) =>
                        if tsCheck toks i "RBRACKET" then
                          match tsMatch toks i ["RBRACKET"] with
                          | some (_, i) => .ok (.arrayLit [], i)
                          | none => .error "unreachable"
                        else do
                          let (elems, i) ← argsLoop toks fuel i
                          match tsMatch toks i ["RBRACKET"] with
                          | some (_, i) => .ok (.arrayLit elems, i)
                          | none =>
                            .error ("Expected RBRACKET, found " ++ (curTok toks i).type)
                      | none =>
                        .error ("Unexpected token " ++ (curTok toks i).type)
termination_by structural fuel

end

/-- _parse_variable_declaration (the ARROW type-annotation branch is
outside the fragment and reports an error; no claim input carries one). -/
def parseVarDecl (toks : List GluedTok) (fuel i : Nat) : Except String (PVarDecl × Nat) :=
  match tsMatch toks i ["LET"] with
  | none => .error ("Expected LET, found " ++ (curTok toks i).type)
  | some (_, i) =>
    let (mutFlag, i) : Bool × Nat :=
      match tsMatch toks i ["MUT"] with
      | some (_, j) => (true, j)
      | none => (false, i)
    match tsMatch toks i ["IDENTIFIER"] with
    | none => .error ("Expected IDENTIFIER, found " ++ (curTok toks i).type)
    | some (t, i) =>
      if (tsMatch toks i ["ARROW"]).isSome then
        .error "fragment: type annotations not embedded"
      else
        match tsMatch toks i ["ASSIGN"] with
        | some (_, i) => do
          let (ini, i) ← parseExpression toks fuel i
          match tsMatch toks i ["SEMICOLON"] with
          | some (_, i) => .ok (⟨asStr t.value, mutFlag, some ini⟩, i)
          | none => .error ("Expected SEMICOLON, found " ++ (curTok toks i).type)
        | none =>
          match tsMatch toks i ["SEMICOLON"] with
          | some (_, i) => .ok (⟨asStr t.value, mutFlag, none⟩, i)
          | none => .error ("Expected SEMICOLON, found " ++ (curTok toks i).type)

end SailParse

/-- Lex a source line with the bootstrap lexer and parse it as a let
statement, as Parser.parse does for a variable declaration at top level. -/
def parseLetStatement (source : String) : Except String SailParse.PVarDecl := do
  let toks ← bootTokenize source
  let (d, _) ← SailParse.parseVarDecl toks (4 * toks.length + 16) 0
  .ok d

/-! ## Part 4: the code generator, src/bootstrap/code_generator.py

PythonCodeGenerator is a stateful visitor.  The embedding passes the
generator state explicitly and covers the visitors the claims are about:
visit_Identifier, visit_Number, visit_BinOp, visit_MemberAccess,
visit_FunctionCall, visit_TypeApplication, visit_Routine,
visit_ExpressionStatement, visit_ReturnStatement, visit_MatchStatement
with the pattern visitors, and visit_Program with its routine-detection
first pass, driver block and import sorting.  The AST vocabulary is the
older ast_nodes variant those visitors dispatch on (FunctionCall, BinOp,
MemberAccess, Number, TypeApplication with an Identifier base).  Calls to
generate_unique_name of src/bootstrap/utils.py return
prefix + "_" + uuid.uuid4().hex; the run-dependent hex draws are modelled
as an explicit stream in the state, consumed one draw per call, so that a
run of the generator is the function applied to the run's stream. -/

namespace CodeGen

/-- Pattern nodes dispatched by visit_NumberPattern, visit_WildcardPattern
and visit_TaggedPattern. -/
inductive GPattern where
  | numberPattern (value : Int)
  | wildcardPattern
  | taggedPattern (typeName variant : String) (fields : List String)
deriving DecidableEq, Repr

mutual

/-- Generator-side expression nodes. -/
inductive GExpr where
  | ident (name : String)
  | num (value : Int)
  | binOp (operator : String) (left right : GExpr)
  | memberAccess (object_ : GExpr) (member : String)
  | functionCall (funcName : GExpr) (arguments : List GExpr)
  | typeApplication (baseName : String) (typeArgs : List String) (arguments : List GExpr)
  | routine (body : List GStmt)

/-- Generator-side statement nodes; a match arm is a pattern with its
body. -/
inductive GStmt where
  | exprStmt (expression : GExpr)
  | retStmt (expression : GExpr)
  | matchStmt (condition : GExpr) (arms : List (GPattern × List GStmt))

end

/-- Program node. -/
structure GProgram where
  statements : List GStmt

/-- Mutable attributes of PythonCodeGenerator (its __init__ fields plus
the lazily created async_functions attribute), with the uuid4 draws of
this run as an explicit stream. -/
structure GenState where
  imports : List String
  code : List String
  indentLevel : Nat
  testFunctions : List String
  globalVariables : List String
  inFunction : Bool
  topLevelRoutines : List String
  functionsWithRoutines : List String
  currentFunctionName : Option String
  typeVars : List String
  asyncFunctions : Option (List String)
  uuidStream : Nat → String
  uuidCount : Nat

/-- Fresh generator state for a run whose uuid4 draws are the given
stream (the __init__ of PythonCodeGenerator). -/
def initState (stream : Nat → String) : GenState :=
  ⟨[], [], 0, [], [], false, [], [], none, [], none, stream, 0⟩

/-- Python set.add on the insertion-ordered model of a string set. -/
def pySetAdd (l : List String) (s : String) : List String :=
  if l.contains s then l else l ++ [s]

/-- imports.add. -/
def addImport (st : GenState) (s : String) : GenState :=
  { st with imports := pySetAdd st.imports s }

/-- code.append. -/
def appendCode (st : GenState) (line : String) : GenState :=
  { st with code := st.code ++ [line] }

/-- The indent helper: four spaces per level. -/
def indentStr (st : GenState) : String :=
  String.join (List.replicate st.indentLevel "    ")

/-- generate_unique_name of src/bootstrap/utils.py: the prefix joined to
the next uuid4 hex draw of the run. -/
def generateUniqueName (st : GenState) (pre : String) : GenState × String :=
  ({ st with uuidCount := st.uuidCount + 1 }, pre ++ "_" ++ st.uuidStream st.uuidCount)

/-- The raw-string branch of map_type. -/
def mapTypeStr (t : String) : String :=
  if t = "number" then "float"
  else if t = "string" then "str"
  else if t = "boolean" then "bool"
  else if t = "void" then "None"
  else t

/-- visit_NumberPattern, visit_WildcardPattern and visit_TaggedPattern. -/
def visitPattern : GPattern → String
  | .numberPattern v => toString v
  | .wildcardPattern => "_"
  | .taggedPattern _ variant fields =>
    if fields.isEmpty then "\x7b\"type\": \"" ++ variant ++ "\"\x7d"
    else
      "\x7b\"type\": \"" ++ variant ++ "\", " ++
        String.intercalate ", " (fields.map (fun f => "\"" ++ f ++ "\": " ++ f)) ++ "\x7d"

/-- hasattr(stmt, "expression"): ExpressionStatement and ReturnStatement
carry the attribute, MatchStatement does not. -/
def hasAttrExpression : GStmt → Bool
  | .exprStmt _ => true
  | .retStmt _ => true
  | .matchStmt _ _ => false

/-- The channel-name test inside the send branch of visit_FunctionCall. -/
def channelNameTest (varName : String) : Bool :=
  strContains varName "channel" || strContains varName "buffer" ||
    ["ch", "c", "chan", "tasks", "queue", "q"].contains varName

/-- Truthiness of current_function_name in self.functions_with_routines
(None is never a member). -/
def currentInRoutines (st : GenState) : Bool :=
  match st.currentFunctionName with
  | some n => st.functionsWithRoutines.contains n
  | none => false

/-- The misparsed-generic test shared by visit_BinOp and
visit_FunctionCall: an AST of shape ((Name < name) > number) yields the
base name and the first argument. -/
def misparseShape (op : String) (l r : GExpr) : Option (String × Int) :=
  match op, l, r with
  | ">", .binOp "<" (.ident typeName) (.ident _), .num firstArg => some (typeName, firstArg)
  | _, _, _ => none

/-- The misparse test on a callee node. -/
def misparseOfExpr (f : GExpr) : Option (String × Int) :=
  match f with
  | .binOp op l r => misparseShape op l r
  | _ => none

/-- The code emitted by the fallback once the misparsed shape is found. -/
def misparseEmit (st : GenState) (typeName : String) (firstArg : Int) :
    GenState × String :=
  if typeName = "Channel" then
    (addImport st "import asyncio", "asyncio.Queue(" ++ toString firstArg ++ ")")
  else (st, typeName ++ "(" ++ toString firstArg ++ ")")

mutual

/-- Expression dispatch of PythonCodeGenerator.visit for the embedded
vocabulary; returns the updated state and the expression text.  The fuel
argument only drives the recursion: any fuel at least the node size
completes, and the wrappers pass such a bound. -/
def visitExpr (fuel : Nat) (st : GenState) (e : GExpr) : GenState × String :=
  match fuel with
  | 0 => (st, "")
  | fuel + 1 =>
    match e with
    | .ident name =>
      if name = "true" then (st, "True")
      else if name = "false" then (st, "False")
      else if name = "null" then (st, "None")
      else (st, name)
    | .num v => (st, toString v)
    | .binOp op l r =>
      -- visit_BinOp: first the misparsed-generic fallback
      match misparseShape op l r with
      | some (typeName, firstArg) => misparseEmit st typeName firstArg
      | none =>
        let (st1, left) := visitExpr fuel st l
        let (st2, right) := visitExpr fuel st1 r
        let opM := if op = "&&" then "and" else if op = "||" then "or" else op
        (st2, "(" ++ left ++ " " ++ opM ++ " " ++ right ++ ")")
    | .memberAccess object_ member =>
      let (st1, obj) := visitExpr fuel st object_
      if obj = "print" && ["info", "debug", "warn", "error"].contains member then
        (st1, "print")
      else if member = "length" then (st1, "len(" ++ obj ++ ")")
      else (st1, obj ++ "." ++ member)
    | .functionCall funcName arguments =>
      -- visit_FunctionCall: first the misparsed-generic fallback on the shape
      match misparseOfExpr funcName with
      | some (typeName, firstArg) => misparseEmit st typeName firstArg
      | none => visitCallRest fuel st funcName arguments
    | .typeApplication baseName typeArgs arguments =>
      -- visit_TypeApplication with an Identifier base
      let base := mapTypeStr baseName
      let argsTypes := String.intercalate ", " (typeArgs.map mapTypeStr)
      let (st1, argVals) := visitExprList fuel st arguments
      (st1, base ++ "[" ++ argsTypes ++ "](" ++ String.intercalate ", " argVals ++ ")")
    | .routine body =>
      -- visit_Routine
      let st1 :=
        match st.currentFunctionName with
        | some n =>
          { st with functionsWithRoutines := pySetAdd st.functionsWithRoutines n }
        | none => st
      let st2 := addImport st1 "import asyncio"
      let (st3, funcName) := generateUniqueName st2 "routine"
      let st4 := appendCode st3 (indentStr st3 ++ "async def " ++ funcName ++ "():")
      let st5 := { st4 with indentLevel := st4.indentLevel + 1 }
      let oldInFunction := st5.inFunction
      let st6 := { st5 with inFunction := true }
      let st7 :=
        if body.isEmpty then appendCode st6 (indentStr st6 ++ "pass")
        else visitStmtList fuel st6 body
      let st8 := { st7 with inFunction := oldInFunction,
                            indentLevel := st7.indentLevel - 1 }
      if !oldInFunction then
        ({ st8 with topLevelRoutines := st8.topLevelRoutines ++ [funcName] }, "")
      else if currentInRoutines st8 then (st8, "await " ++ funcName ++ "()")
      else (st8, "asyncio.create_task(" ++ funcName ++ "())")
termination_by structural fuel

/-- The remainder of visit_FunctionCall after the misparse fallback:
visit the callee and the arguments, then apply the special cases in
source order. -/
def visitCallRest (fuel : Nat) (st : GenState) (funcName : GExpr)
    (arguments : List GExpr) : GenState × String :=
  match fuel with
  | 0 => (st, "")
  | fuel + 1 =>
    let (st1, _fn) := visitExpr fuel st funcName
    let (st2, argL) := visitExprList fuel st1 arguments
    let args := String.intercalate ", " argL
    match funcName with
    | .ident "Channel" => (addImport st2 "import asyncio", "asyncio.Queue()")
    | .typeApplication "Channel" _ _ =>
      (addImport st2 "import asyncio", "asyncio.Queue(" ++ args ++ ")")
    | .memberAccess object_ "filter" =>
      let (st3, obj) := visitExpr fuel st2 object_
      (st3, "list(filter(" ++ args ++ ", " ++ obj ++ "))")
    | .memberAccess object_ "map" =>
      let (st3, obj) := visitExpr fuel st2 object_
      (st3, "list(map(" ++ args ++ ", " ++ obj ++ "))")
    | .memberAccess object_ "reduce" =>
      let st3 := addImport st2 "import functools"
      let (st4, obj) := visitExpr fuel st3 object_
      let (st5, argList) := visitExprList fuel st4 arguments
      (match argList with
       | [initial, reducer] =>
         (st5, "functools.reduce(" ++ reducer ++ ", " ++ obj ++ ", " ++ initial ++ ")")
       | _ => (st5, "functools.reduce(" ++ args ++ ", " ++ obj ++ ")"))
    | .memberAccess object_ "concat" =>
      let (st3, obj) := visitExpr fuel st2 object_
      (st3, "(" ++ obj ++ " + " ++ args ++ ")")
    | .memberAccess object_ "send" =>
      let (st3, obj) := visitExpr fuel st2 object_
      (match object_ with
       | .ident name =>
         let varName := pyLower name
         if channelNameTest varName then (st3, obj ++ ".put_nowait(" ++ args ++ ")")
         else (st3, obj ++ ".send(" ++ args ++ ")")
       | _ => (st3, obj ++ ".send(" ++ args ++ ")"))
    | .memberAccess object_ "receive" =>
      let (st3, obj) := visitExpr fuel st2 object_
      (st3, obj ++ ".get()")
    | .ident "sleep" =>
      let isInAsync :=
        match st2.asyncFunctions, st2.currentFunctionName with
        | some af, some n => af.contains n
        | _, _ => false
      if isInAsync then
        let st3 := addImport st2 "import asyncio"
        if args ≠ "" then (st3, "await asyncio.sleep(" ++ args ++ " / 1000)")
        else (st3, "await asyncio.sleep(0)")
      else
        let st3 := addImport st2 "import time"
        if args ≠ "" then (st3, "time.sleep(" ++ args ++ " / 1000)")
        else (st3, "time.sleep(0)")
    | _ => (st2, _fn ++ "(" ++ args ++ ")")
termination_by structural fuel

/-- Left-to-right visit of an argument list. -/
def visitExprList (fuel : Nat) (st : GenState) (es : List GExpr) :
    GenState × List String :=
  match fuel with
  | 0 => (st, [])
  | fuel + 1 =>
    match es with
    | [] => (st, [])
    | e :: rest =>
      let (st1, s) := visitExpr fuel st e
      let (st2, ss) := visitExprList fuel st1 rest
      (st2, s :: ss)
termination_by structural fuel

/-- Statement dispatch: visit_ExpressionStatement, visit_ReturnStatement
and visit_MatchStatement. -/
def visitStmt (fuel : Nat) (st : GenState) (s : GStmt) : GenState :=
  match fuel with
  | 0 => st
  | fuel + 1 =>
    match s with
    | .exprStmt e =>
      let (st1, expr) := visitExpr fuel st e
      appendCode st1 (indentStr st1 ++ expr)
    | .retStmt e =>
      let (st1, expr) := visitExpr fuel st e
      appendCode st1 (indentStr st1 ++ "return " ++ expr)
    | .matchStmt condition arms =>
      let (st1, cond) := visitExpr fuel st condition
      let st2 := appendCode st1 (indentStr st1 ++ "match " ++ cond ++ ":")
      let st3 := { st2 with indentLevel := st2.indentLevel + 1 }
      let st4 := visitArmList fuel st3 arms
      { st4 with indentLevel := st4.indentLevel - 1 }
termination_by structural fuel

/-- The per-arm loop of visit_MatchStatement: a case line per arm, then
either pass, a returned single expression, or the visited statements. -/
def visitArmList (fuel : Nat) (st : GenState) (arms : List (GPattern × List GStmt)) :
    GenState :=
  match fuel with
  | 0 => st
  | fuel + 1 =>
    match arms with
    | [] => st
    | (pat, body) :: rest =>
      let p := visitPattern pat
      let st1 := appendCode st (indentStr st ++ "case " ++ p ++ ":")
      let st2 := { st1 with indentLevel := st1.indentLevel + 1 }
      let st3 :=
        match body with
        | [] => appendCode st2 (indentStr st2 ++ "pass")
        | [.exprStmt e] =>
          let (st', expr) := visitExpr fuel st2 e
          appendCode st' (indentStr st' ++ "return " ++ expr)
        | [.retStmt e] =>
          let (st', expr) := visitExpr fuel st2 e
          appendCode st' (indentStr st' ++ "return " ++ expr)
        | stmts => visitStmtList fuel st2 stmts
      let st4 := { st3 with indentLevel := st3.indentLevel - 1 }
      visitArmList fuel st4 rest
termination_by structural fuel

/-- Sequential statement visiting. -/
def visitStmtList (fuel : Nat) (st : GenState) (ss : List GStmt) : GenState :=
  match fuel with
  | 0 => st
  | fuel + 1 =>
    match ss with
    | [] => st
    | s :: rest => visitStmtList fuel (visitStmt fuel st s) rest
termination_by structural fuel

end

mutual

/-- RoutineDetector.visit on expressions: record the enclosing function
name at each Routine node (the fragment has no FunctionDeclaration
variant, so the current function stays None and nothing is recorded, as
in the first pass over such programs). -/
def detectExpr (fuel : Nat) (cur : Option String) (e : GExpr) : List String :=
  match fuel with
  | 0 => []
  | fuel + 1 =>
    match e with
    | .ident _ => []
    | .num _ => []
    | .binOp _ l r => detectExpr fuel cur l ++ detectExpr fuel cur r
    | .memberAccess o _ => detectExpr fuel cur o
    | .functionCall f args => detectExpr fuel cur f ++ detectExprList fuel cur args
    | .typeApplication _ _ args => detectExprList fuel cur args
    | .routine body =>
      (match cur with | some n => [n] | none => []) ++ detectStmtList fuel cur body
termination_by structural fuel

/-- RoutineDetector over expression lists. -/
def detectExprList (fuel : Nat) (cur : Option String) (es : List GExpr) : List String :=
  match fuel with
  | 0 => []
  | fuel + 1 =>
    match es with
    | [] => []
    | e :: rest => detectExpr fuel cur e ++ detectExprList fuel cur rest
termination_by structural fuel

/-- RoutineDetector over statements. -/
def detectStmt (fuel : Nat) (cur : Option String) (s : GStmt) : List String :=
  match fuel with
  | 0 => []
  | fuel + 1 =>
    match s with
    | .exprStmt e => detectExpr fuel cur e
    | .retStmt e => detectExpr fuel cur e
    | .matchStmt c arms => detectExpr fuel cur c ++ detectArmList fuel cur arms
termination_by structural fuel

/-- RoutineDetector over match arms. -/
def detectArmList (fuel : Nat) (cur : Option String)
    (arms : List (GPattern × List GStmt)) : List String :=
  match fuel with
  | 0 => []
  | fuel + 1 =>
    match arms with
    | [] => []
    | (_, body) :: rest => detectStmtList fuel cur body ++ detectArmList fuel cur rest
termination_by structural fuel

/-- RoutineDetector over statement lists. -/
def detectStmtList (fuel : Nat) (cur : Option String) (ss : List GStmt) : List String :=
  match fuel with
  | 0 => []
  | fuel + 1 =>
    match ss with
    | [] => []
    | s :: rest => detectStmt fuel cur s ++ detectStmtList fuel cur rest
termination_by structural fuel

end

/-- Insertion into a sorted list of strings. -/
def insertSorted (s : String) : List String → List String
  | [] => [s]
  | x :: xs => if s ≤ x then s :: x :: xs else x :: insertSorted s xs

/-- Python sorted on a list of distinct strings. -/
def pySort : List String → List String
  | [] => []
  | x :: xs => insertSorted x (pySort xs)

/-- The test-runner lines the driver emits per recorded test function
(lines 138-152 of visit_Program). -/
def testRunnerLines (testFunc : String) : List String :=
  ["    try:",
   "        " ++ testFunc ++ "()",
   "        print(\"✓ Test passed: " ++ testFunc ++ "\")",
   "    except AssertionError as e:",
   "        print(\"✗ Test failed: " ++ testFunc ++ "\")",
   "        print(f\"  Assertion error: \x7be\x7d\")",
   "    except Exception as e:",
   "        print(\"✗ Test error: " ++ testFunc ++ "\")",
   "        print(f\"  Error: \x7be\x7d\")"]

/-- visit_Program.  The fragment AST has no FunctionDeclaration variant,
so the search for a top-level main finds none and has_main is False; the
test-runner loop and the top-level-routine driver are reproduced as in
lines 115-209, followed by the __future__ import, the sorted remaining
imports, the sorted TypeVar declarations and the join. -/
def visitProgram (fuel : Nat) (st : GenState) (p : GProgram) : GenState × String :=
  let detected := detectStmtList fuel none p.statements
  let st0 := { st with
    functionsWithRoutines := detected.foldl pySetAdd st.functionsWithRoutines }
  let st1 := visitStmtList fuel st0 p.statements
  let hasMain := false
  let hasRoutines := !st1.topLevelRoutines.isEmpty
  let st2 :=
    if !st1.testFunctions.isEmpty || hasMain || hasRoutines then
      let stA := appendCode st1 ""
      let stB := appendCode stA "if __name__ == \"__main__\":"
      let stC :=
        if !st1.testFunctions.isEmpty then
          { stB with code := stB.code ++ ["    # Run tests"] ++
              (st1.testFunctions.map testRunnerLines).flatten }
        else stB
      if hasRoutines then
        let stD := addImport stC "import asyncio"
        let stE := appendCode stD "    # Run top-level routines"
        let stF := appendCode stE "    async def run_routines():"
        let routineCalls := st1.topLevelRoutines.map (fun r => r ++ "()")
        let stG := appendCode stF
          ("        await asyncio.gather(" ++ String.intercalate ", " routineCalls ++ ")")
        appendCode stG "    asyncio.run(run_routines())"
      else stC
    else st1
  let futureImport := "from __future__ import annotations"
  let otherImports := pySort (st2.imports.filter (fun imp => imp ≠ futureImport))
  let typeVarDecls :=
    (pySort st2.typeVars).map (fun tv => tv ++ " = TypeVar(\x27" ++ tv ++ "\x27)")
  let importsAndTypeVars :=
    [futureImport] ++ otherImports ++
    (if st2.typeVars.isEmpty then [] else [""] ++ typeVarDecls) ++ [""]
  let finalCode := importsAndTypeVars ++ st2.code
  ({ st2 with code := finalCode }, String.intercalate "\n" finalCode)

/-- emit(Program) for the run whose uuid4 draws are the given stream;
fuel at least the total node count of the program completes the visit. -/
def emit (fuel : Nat) (stream : Nat → String) (p : GProgram) : String :=
  (visitProgram fuel (initState stream) p).2

end CodeGen

/-! ## Part 5: the validator, src/bootstrap/validator.py

ASTValidator is a stateful visitor whose only state is
current_type_params.  The embedding passes that set explicitly, returns
the set as left by the visit, and additionally records a trace entry
(argument, set in effect) for every is_valid_type call, as a pure
observation of the mutable state the claim C8 is about.  The embedded
branches are Program, FunctionDeclaration, MethodDeclaration,
StructDeclaration, FieldDeclaration and Identifier; parameter tuples are
(name, optional type string) since the validator reads only those
components, and types appear in their raw-string form, which
is_valid_type accepts directly. -/

namespace Validator

/-- Python str.isidentifier on the ASCII names the compiler handles. -/
def pyIsIdentifier (s : String) : Bool :=
  match s.toList with
  | [] => false
  | c :: cs => BootLexer.identStart c && cs.all BootLexer.identChar

/-- The (\[\])* part of the is_valid_type segment. -/
def dropBracketPairs : List Char → List Char
  | '[' :: ']' :: rest => dropBracketPairs rest
  | l => l

/-- One identifier segment with optional [] pairs and optional ?, the
piece [A-Za-z_][A-Za-z0-9_]*(\[\])*\??  of the is_valid_type regex;
returns the unconsumed rest. -/
def dropSegment (l : List Char) : Option (List Char) :=
  match l with
  | [] => none
  | c :: cs =>
    if BootLexer.identStart c then
      match dropBracketPairs (cs.dropWhile BootLexer.identChar) with
      | '?' :: rest => some rest
      | rest => some rest
    else none

/-- The full is_valid_type regex: segments joined by | or &. -/
def typeRegexGo (fuel : Nat) (l : List Char) : Bool :=
  match fuel with
  | 0 => false
  | fuel + 1 =>
    match dropSegment l with
    | none => false
    | some [] => true
    | some (c :: rest) => (c = '|' || c = '&') && typeRegexGo fuel rest

/-- Full-string regex match of the is_valid_type pattern. -/
def typeRegexOk (t : String) : Bool :=
  typeRegexGo (t.length + 1) t.toList

/-- is_valid_type of ASTValidator on a raw type string: a member of
current_type_params, or a full match of the segment regex. -/
def isValidType (params : List String) (t : String) : Bool :=
  params.contains t || typeRegexOk t

/-- AST fragment for the validator: declarations whose branches touch or
should touch current_type_params, plus fields and identifiers. -/
inductive VNode where
  | program (statements : List VNode)
  | functionDeclaration (name : String) (typeParams : List String)
      (params : List (String × Option String)) (body : List VNode)
  | methodDeclaration (name : String) (typeParams : List String)
      (params : List (String × Option String)) (body : List VNode)
  | structDeclaration (name : String) (typeParams : List String)
      (members : List VNode)
  | fieldDeclaration (name : String) (fieldType : String)
  | identifier (name : String)

/-- Python set.update: add the new names to the insertion-ordered set. -/
def pyUpdate (base tps : List String) : List String :=
  tps.foldl (fun acc t => if acc.contains t then acc else acc ++ [t]) base

/-- A recorded is_valid_type call: the argument and the
current_type_params set in effect at the call. -/
abbrev TraceEntry := String × List String

/-- The parameter loop shared by the FunctionDeclaration and
MethodDeclaration branches: name wellformedness, then the is_valid_type
check on each annotated parameter type, logged with the set in effect. -/
def checkParams (params : List String) :
    List (String × Option String) → Except String (List TraceEntry)
  | [] => .ok []
  | (pname, ptype) :: rest =>
    if !pyIsIdentifier pname then .error ("Invalid parameter name: " ++ pname)
    else
      match ptype with
      | some t =>
        if !isValidType params t then .error ("Invalid parameter type: " ++ t)
        else
          match checkParams params rest with
          | .error e => .error e
          | .ok tr2 => .ok ((t, params) :: tr2)
      | none => checkParams params rest

/-- The type-parameter wellformedness loop of the StructDeclaration
branch. -/
def checkTypeParams : List String → Except String Unit
  | [] => .ok ()
  | tp :: rest =>
    if !pyIsIdentifier tp then .error ("Invalid type parameter: " ++ tp)
    else checkTypeParams rest

mutual

/-- ASTValidator.validate: the explicit current_type_params set goes in,
the set as the visit leaves it comes out, together with the trace of
is_valid_type calls made during the visit.  fuel only drives the
recursion; any fuel at least the tree depth completes. -/
def validate (fuel : Nat) (params : List String) (node : VNode) :
    Except String (List String × List TraceEntry) :=
  match fuel with
  | 0 => .error "out of fuel"
  | fuel + 1 =>
  match node with
  | .program statements => validateList fuel params statements
  | .functionDeclaration name _typeParams prms body =>
    if !pyIsIdentifier name then .error ("Invalid function name: " ++ name)
    else
      match checkParams params prms with
      | .error e => .error e
      | .ok tr1 =>
        match validateList fuel params body with
        | .error e => .error e
        | .ok (params1, tr2) => .ok (params1, tr1 ++ tr2)
  | .methodDeclaration name _typeParams prms body =>
    if !pyIsIdentifier name then .error ("Invalid method name: " ++ name)
    else
      match checkParams params prms with
      | .error e => .error e
      | .ok tr1 =>
        match validateList fuel params body with
        | .error e => .error e
        | .ok (params1, tr2) => .ok (params1, tr1 ++ tr2)
  | .structDeclaration name typeParams members =>
    if !pyIsIdentifier name then .error ("Invalid struct name: " ++ name)
    else
      match checkTypeParams typeParams with
      | .error e => .error e
      | .ok _ =>
        -- prev_type_params = self.current_type_params.copy();
        -- self.current_type_params.update(node.type_params)
        let prev := params
        let inner := pyUpdate params typeParams
        match validateList fuel inner members with
        | .error e => .error e
        -- self.current_type_params = prev_type_params
        | .ok (_, tr) => .ok (prev, tr)
  | .fieldDeclaration name fieldType =>
    if !pyIsIdentifier name then .error ("Invalid field name: " ++ name)
    else if !isValidType params fieldType then
      .error ("Invalid field type: " ++ fieldType)
    else .ok (params, [(fieldType, params)])
  | .identifier name =>
    if !pyIsIdentifier name then .error ("Invalid identifier: " ++ name)
    else .ok (params, [])
termination_by structural fuel

/-- Sequential validation with the mutated set threaded on. -/
def validateList (fuel : Nat) (params : List String) (nodes : List VNode) :
    Except String (List String × List TraceEntry) :=
  match fuel with
  | 0 => .error "out of fuel"
  | fuel + 1 =>
  match nodes with
  | [] => .ok (params, [])
  | n :: rest =>
    match validate fuel params n with
    | .error e => .error e
    | .ok (params1, tr1) =>
      match validateList fuel params1 rest with
      | .error e => .error e
      | .ok (params2, tr2) => .ok (params2, tr1 ++ tr2)
termination_by structural fuel

end

end Validator

/-! ## Part 6: the module loader, src/bootstrap/module_loader.py

ModuleLoader.load_sailfin_module with its caches.  File contents and the
parse-validate-emit composition of the other pipeline stages are
abstracted by the fs parameter: a resolved path maps to its parsed module
(its ImportModuleStatement list and the code the generator produces for
it), and an event trace records where the parse and emit work happens.
resolve_module_path joins OS paths and normalizes them on the real file
system; the claims quantify over resolved paths, so module keys here are
the already-resolved specifiers.  The salted per-session str hash and the
temp directory enter as parameters pyHash and tempDir of the session.
The try/finally discipline is reproduced: the loading mark set inside the
try block is discarded on both the success and the exception path, while
the circular-import check raises before the mark is set. -/

namespace Loader

/-- Parsed module content as the loader consumes it: the module-style
imports of the AST and the code the generator emits for the module. -/
structure ModSrc where
  imports : List (String × String)
  code : String
deriving DecidableEq, Repr

/-- The ImportError kinds load_sailfin_module raises, with their message
texts. -/
inductive LoadErr where
  | notFound (msg : String)
  | circular (msg : String)
  | fuel
deriving DecidableEq, Repr

/-- Pipeline work performed during loading: a parse (with validation) or
a code-generation of the module at a path. -/
inductive LoadEv where
  | parsed (path : String)
  | emitted (path : String)
deriving DecidableEq, Repr

/-- The three return shapes of load_sailfin_module, carrying the variable
parts of the Python format strings: the builtin import statement, the
cached exec-from-temp-file statement, and the self-contained embedded
module block (whose Python form base64-encodes the code). -/
inductive LoadResult where
  | builtinImport (pythonModuleName aliasName : String)
  | cachedExec (moduleName tempFile aliasName : String)
  | embedded (aliasName source code : String)
deriving DecidableEq, Repr

/-- Loader caches: loaded_modules maps a module key to its
(module_name, temp_file) artifact; loading_modules is the circular-import
mark set; temp_files tracks written temp files. -/
structure LoaderState where
  loadedModules : List (String × String × String)
  loadingModules : List String
  tempFiles : List String
deriving DecidableEq, Repr

/-- A fresh loader. -/
def initLoader : LoaderState := ⟨[], [], []⟩

/-- set.discard on the loading set. -/
def discardLoading (st : LoaderState) (key : String) : LoaderState :=
  { st with loadingModules := st.loadingModules.filter (fun k => k ≠ key) }

/-- Python source.replace("/", ".") for builtin module names. -/
def slashesToDots (s : String) : String :=
  String.mk (s.toList.map (fun c => if c = '/' then '.' else c))

mutual

/-- load_sailfin_module.  Returns the result or the raised ImportError,
the loader state after the call, and the trace of pipeline work. -/
def loadModule (fs : String → Option ModSrc) (pyHash : String → Nat)
    (tempDir : String) (fuel : Nat) (st : LoaderState)
    (source aliasName : String) (_currentFile : Option String) :
    Except LoadErr LoadResult × LoaderState × List LoadEv :=
  match fuel with
  | 0 => (.error .fuel, st, [])
  | fuel + 1 =>
    if source.startsWith "sailfin/" then
      (.ok (.builtinImport (slashesToDots source) aliasName), st, [])
    else
      let moduleKey := source
      match fs moduleKey with
      | none =>
        (.error (.notFound ("Module not found: " ++ source ++ " (resolved to " ++
          moduleKey ++ ")")), st, [])
      | some m =>
        match st.loadedModules.lookup moduleKey with
        | some (moduleName, tempFile) => (.ok (.cachedExec moduleName tempFile aliasName), st, [])
        | none =>
          if st.loadingModules.contains moduleKey then
            (.error (.circular ("Circular import detected: " ++ source)), st, [])
          else
            let st1 := { st with loadingModules := st.loadingModules ++ [moduleKey] }
            let ev1 := [LoadEv.parsed moduleKey]
            match processImports fs pyHash tempDir fuel st1 m.imports moduleKey with
            | (.error e, st2, ev2) =>
              (.error e, discardLoading st2 moduleKey, ev1 ++ ev2)
            | (.ok _, st2, ev2) =>
              let ev3 := [LoadEv.emitted moduleKey]
              let moduleName :=
                "sailfin_module_" ++ aliasName ++ "_" ++ toString (pyHash moduleKey % 1000000)
              let tempFile := tempDir ++ "/" ++ moduleName ++ ".py"
              let st3 := { st2 with
                tempFiles := if st2.tempFiles.contains tempFile then st2.tempFiles
                             else st2.tempFiles ++ [tempFile] }
              let st4 := { st3 with
                loadedModules := st3.loadedModules ++ [(moduleKey, moduleName, tempFile)] }
              (.ok (.embedded aliasName source m.code), discardLoading st4 moduleKey,
                ev1 ++ ev2 ++ ev3)
termination_by structural fuel

/-- _process_module_imports: load each module-style import in order,
propagating the first ImportError. -/
def processImports (fs : String → Option ModSrc) (pyHash : String → Nat)
    (tempDir : String) (fuel : Nat) (st : LoaderState)
    (imps : List (String × String)) (currentFile : String) :
    Except LoadErr Unit × LoaderState × List LoadEv :=
  match fuel with
  | 0 => (.error .fuel, st, [])
  | fuel + 1 =>
    match imps with
    | [] => (.ok (), st, [])
    | (src, aliasName) :: rest =>
      match loadModule fs pyHash tempDir fuel st src aliasName (some currentFile) with
      | (.error e, st1, ev) => (.error e, st1, ev)
      | (.ok _, st1, ev) =>
        match processImports fs pyHash tempDir fuel st1 rest currentFile with
        | (r, st2, ev2) => (r, st2, ev ++ ev2)
termination_by structural fuel

end

end Loader

/-- The one-module file system and hash used to witness the cache behaviour. -/
def fsOne : String → Option Loader.ModSrc :=
  fun p => if p = "m.sfn" then some ⟨[], "codeM"⟩ else none

/-- Well-placed raw token: its recorded line is one plus the number of
newlines before its match position, the position is in range, and its
value is recoverable from the source text at that position: verbatim for
plain tokens, quote-stripped for STRING, numerically for NUMBER. -/
def RawOK (src : List Char) (t : BootLexer.RawTok) : Prop :=
  t.lineno = 1 + ((src.take t.lexpos).count '\n') ∧
  t.lexpos ≤ src.length ∧
  ((∃ s, t.value = .str s ∧ t.type ≠ "STRING" ∧
      BootLexer.sliceL src t.lexpos (t.lexpos + s.length) = s.toList) ∨
   (∃ s, t.value = .str s ∧ t.type = "STRING" ∧
      BootLexer.sliceL src t.lexpos (t.lexpos + (s.length + 2)) =
        '"' :: (s.toList ++ ['"'])) ∨
   (∃ v len, t.value = .num v ∧ 0 < len ∧
      BootLexer.pyNumber (String.mk (BootLexer.sliceL src t.lexpos (t.lexpos + len))) = v))

end Sailfin

namespace Sailfin

/-! ## Claim theorems -/


set_option maxHeartbeats 2000000 in
/-- C1: the recursive-descent parser has no generic-application try-parse:
lexing and parsing the declaration "let c = Channel<number>(10);" yields a
VariableDeclaration whose initializer is the comparison chain
((Channel < number) > 10), not a TypeApplication node; and
visit_FunctionCall of the code generator retains the fallback that
pattern-matches exactly that comparison-shaped AST and recovers the
generic constructor call, emitting asyncio.Queue(10) and adding the
asyncio import. -/
theorem c1_no_parser_disambiguation_and_fallback_retained :
    bootTokenize "let c = Channel<number>(10);" =
      .ok [⟨"LET", .str "let", 1, 1⟩, ⟨"IDENTIFIER", .str "c", 1, 5⟩,
           ⟨"ASSIGN", .str "=", 1, 7⟩, ⟨"IDENTIFIER", .str "Channel", 1, 9⟩,
           ⟨"LT", .str "<", 1, 16⟩, ⟨"IDENTIFIER", .str "number", 1, 17⟩,
           ⟨"GT", .str ">", 1, 23⟩, ⟨"LPAREN", .str "(", 1, 24⟩,
           ⟨"NUMBER", .num 10, 1, 25⟩, ⟨"RPAREN", .str ")", 1, 27⟩,
           ⟨"SEMICOLON", .str ";", 1, 28⟩, ⟨"EOF", .str "<eof>", 1, 0⟩] ∧
    SailParse.parseVarDecl
      [⟨"LET", .str "let", 1, 1⟩, ⟨"IDENTIFIER", .str "c", 1, 5⟩,
       ⟨"ASSIGN", .str "=", 1, 7⟩, ⟨"IDENTIFIER", .str "Channel", 1, 9⟩,
       ⟨"LT", .str "<", 1, 16⟩, ⟨"IDENTIFIER", .str "number", 1, 17⟩,
       ⟨"GT", .str ">", 1, 23⟩, ⟨"LPAREN", .str "(", 1, 24⟩,
       ⟨"NUMBER", .num 10, 1, 25⟩, ⟨"RPAREN", .str ")", 1, 27⟩,
       ⟨"SEMICOLON", .str ";", 1, 28⟩, ⟨"EOF", .str "<eof>", 1, 0⟩] 64 0 =
      .ok (⟨"c", false, some (.binary ">"
        (.binary "<" (.identifier "Channel") (.identifier "number"))
        (.numberLit (.num 10)))⟩, 11) ∧
    CodeGen.visitExpr 9 (CodeGen.initState fun _ => "")
      (.functionCall (.binOp ">" (.binOp "<" (.ident "Channel") (.ident "number"))
        (.num 10)) []) =
      ({ CodeGen.initState (fun _ => "") with imports := ["import asyncio"] },
        "asyncio.Queue(10)") := by
  refine ⟨rfl, rfl, rfl⟩

/-- C2: emit lowers the match statement over s with the single arm
Shape.Circle \x7b radius \x7d to a host match/case statement, not to an
if-ladder, and emits no non-exhaustive check: none of the generated lines
mentions non-exhaustive (or any raise, or any if), so a scrutinee no arm
matches falls through silently instead of raising the runtime error the
claim requires. -/
theorem c2_match_lowering_has_no_panic :
    (CodeGen.visitStmt 9 (CodeGen.initState fun _ => "")
      (.matchStmt (.ident "s")
        [(.taggedPattern "Shape" "Circle" ["radius"],
          [.exprStmt (.binOp "*" (.ident "radius") (.ident "radius"))])])).code =
      ["match s:",
       "    case \x7b\"type\": \"Circle\", \"radius\": radius\x7d:",
       "        return (radius * radius)"] ∧
    (["match s:",
      "    case \x7b\"type\": \"Circle\", \"radius\": radius\x7d:",
      "        return (radius * radius)"].all
        (fun line => !strContains line "non-exhaustive") = true) ∧
    (["match s:",
      "    case \x7b\"type\": \"Circle\", \"radius\": radius\x7d:",
      "        return (radius * radius)"].all
        (fun line => !strContains line "if" && !strContains line "raise") = true) := by
  refine ⟨rfl, by decide, by decide⟩

set_option maxHeartbeats 4000000 in
/-- C3: emitted code is not byte-identical across runs.
generate_unique_name draws uuid.uuid4().hex, so two runs of the generator
on the program consisting of one top-level routine differ wherever the
routine function is named; here the runs whose uuid draws are aaaa and
bbbb produce different bytes. -/
theorem c3_emit_differs_across_runs :
    CodeGen.emit 20 (fun _ => "aaaa") ⟨[.exprStmt (.routine [.exprStmt (.num 1)])]⟩ ≠
    CodeGen.emit 20 (fun _ => "bbbb") ⟨[.exprStmt (.routine [.exprStmt (.num 1)])]⟩ := by
  have ha : CodeGen.emit 20 (fun _ => "aaaa")
      ⟨[.exprStmt (.routine [.exprStmt (.num 1)])]⟩ =
      "from __future__ import annotations\nimport asyncio\n\nasync def routine_aaaa():\n    1\n\n\nif __name__ == \"__main__\":\n    # Run top-level routines\n    async def run_routines():\n        await asyncio.gather(routine_aaaa())\n    asyncio.run(run_routines())" := rfl
  have hb : CodeGen.emit 20 (fun _ => "bbbb")
      ⟨[.exprStmt (.routine [.exprStmt (.num 1)])]⟩ =
      "from __future__ import annotations\nimport asyncio\n\nasync def routine_bbbb():\n    1\n\n\nif __name__ == \"__main__\":\n    # Run top-level routines\n    async def run_routines():\n        await asyncio.gather(routine_bbbb())\n    asyncio.run(run_routines())" := rfl
  rw [ha, hb]
  decide

/-- C4 counterexample: a receive call on a receiver with no channel shape
is not passed through unchanged: ws.receive() is rewritten to ws.get()
even though ws fails the channel-name heuristic, contradicting the claim
that for every non-channel receiver both send and receive pass through. -/
theorem c4_counterexample_receive_rewritten :
    CodeGen.visitExpr 9 (CodeGen.initState fun _ => "")
      (.functionCall (.memberAccess (.ident "ws") "receive") []) =
      (CodeGen.initState fun _ => "", "ws.get()") ∧
    CodeGen.channelNameTest (pyLower "ws") = false ∧
    "ws.get()" ≠ "ws.receive()" := by
  refine ⟨rfl, by decide, by decide⟩

/-- C10: visit_MemberAccess rewrites every member access whose member is
length to len(object) unconditionally, whatever the object evaluates to
(a user-defined field named length included), and a member access whose
object emits as print with member info, debug, warn or error is emitted
as the bare print. -/
theorem c10_member_access_length_and_print :
    (∀ (fuel : Nat) (st : CodeGen.GenState) (e : CodeGen.GExpr),
      CodeGen.visitExpr (fuel + 1) st (.memberAccess e "length") =
        ((CodeGen.visitExpr fuel st e).1,
          "len(" ++ (CodeGen.visitExpr fuel st e).2 ++ ")")) ∧
    (∀ (fuel : Nat) (st : CodeGen.GenState) (e : CodeGen.GExpr) (m : String),
      (CodeGen.visitExpr fuel st e).2 = "print" →
      m ∈ ["info", "debug", "warn", "error"] →
      CodeGen.visitExpr (fuel + 1) st (.memberAccess e m) =
        ((CodeGen.visitExpr fuel st e).1, "print")) := by
  constructor
  · intro fuel st e
    simp only [CodeGen.visitExpr]
    rcases hv : CodeGen.visitExpr fuel st e with ⟨st1, obj⟩
    simp
  · intro fuel st e m hprint hm
    simp only [CodeGen.visitExpr]
    rcases hv : CodeGen.visitExpr fuel st e with ⟨st1, obj⟩
    rw [hv] at hprint
    simp at hprint
    subst hprint
    fin_cases hm <;> simp

/-- Witness for C10 at concrete inputs: xs.length becomes len(xs) and
print.info becomes print. -/
theorem c10_member_access_witness :
    CodeGen.visitExpr 2 (CodeGen.initState fun _ => "")
      (.memberAccess (.ident "xs") "length") =
      ((CodeGen.visitExpr 1 (CodeGen.initState fun _ => "") (.ident "xs")).1,
        "len(" ++ (CodeGen.visitExpr 1 (CodeGen.initState fun _ => "") (.ident "xs")).2 ++ ")") ∧
    CodeGen.visitExpr 2 (CodeGen.initState fun _ => "")
      (.memberAccess (.ident "print") "info") =
      ((CodeGen.visitExpr 1 (CodeGen.initState fun _ => "") (.ident "print")).1, "print") :=
  ⟨c10_member_access_length_and_print.1 1 (CodeGen.initState fun _ => "") (.ident "xs"),
   c10_member_access_length_and_print.2 1 (CodeGen.initState fun _ => "") (.ident "print")
     "info" rfl (by decide)⟩

/-- C4 (amended): a send call is lowered to put_nowait exactly when the
receiver is an identifier whose lowercased name passes the channel-name
test of the source (contains channel or buffer, or is one of ch, c, chan,
tasks, queue, q); a send on any non-identifier receiver passes through
unchanged; and a receive call is rewritten to .get() for every receiver
whatsoever. -/
theorem c4_send_receive_lowering :
    (∀ (fuel : Nat) (st : CodeGen.GenState) (name : String) (args : List CodeGen.GExpr),
      CodeGen.visitExpr (fuel + 3) st
          (.functionCall (.memberAccess (.ident name) "send") args) =
        (let st1 := (CodeGen.visitExpr (fuel + 1) st
          (.memberAccess (.ident name) "send")).1
         let pa := CodeGen.visitExprList (fuel + 1) st1 args
         let ov := CodeGen.visitExpr (fuel + 1) pa.1 (.ident name)
         let argsText := String.intercalate ", " pa.2
         if CodeGen.channelNameTest (pyLower name)
         then (ov.1, ov.2 ++ ".put_nowait(" ++ argsText ++ ")")
         else (ov.1, ov.2 ++ ".send(" ++ argsText ++ ")"))) ∧
    (∀ (fuel : Nat) (st : CodeGen.GenState) (e : CodeGen.GExpr)
        (args : List CodeGen.GExpr),
      CodeGen.visitExpr (fuel + 3) st
          (.functionCall (.memberAccess e "receive") args) =
        (let st1 := (CodeGen.visitExpr (fuel + 1) st (.memberAccess e "receive")).1
         let pa := CodeGen.visitExprList (fuel + 1) st1 args
         let ov := CodeGen.visitExpr (fuel + 1) pa.1 e
         (ov.1, ov.2 ++ ".get()"))) ∧
    (∀ (fuel : Nat) (st : CodeGen.GenState) (e : CodeGen.GExpr)
        (args : List CodeGen.GExpr),
      (∀ n, e ≠ .ident n) →
      CodeGen.visitExpr (fuel + 3) st
          (.functionCall (.memberAccess e "send") args) =
        (let st1 := (CodeGen.visitExpr (fuel + 1) st (.memberAccess e "send")).1
         let pa := CodeGen.visitExprList (fuel + 1) st1 args
         let ov := CodeGen.visitExpr (fuel + 1) pa.1 e
         (ov.1, ov.2 ++ ".send(" ++ String.intercalate ", " pa.2 ++ ")"))) := by
  refine ⟨?_, ?_, ?_⟩
  · intro fuel st name args
    simp only [CodeGen.visitExpr, CodeGen.misparseOfExpr, CodeGen.visitCallRest]
  · intro fuel st e args
    simp only [CodeGen.visitExpr, CodeGen.misparseOfExpr, CodeGen.visitCallRest]
  · intro fuel st e args hne
    simp only [CodeGen.visitExpr, CodeGen.misparseOfExpr, CodeGen.visitCallRest]

/-- Witness for C4 at concrete inputs: a send on the non-identifier
receiver a.b passes through as .send, instantiating the non-identifier
conjunct of the lowering theorem. -/
theorem c4_send_receive_witness :
    CodeGen.visitExpr 3 (CodeGen.initState fun _ => "")
        (.functionCall (.memberAccess (.memberAccess (.ident "a") "b") "send")
          [.num 1]) =
      (let st1 := (CodeGen.visitExpr 1 (CodeGen.initState fun _ => "")
        (.memberAccess (.memberAccess (.ident "a") "b") "send")).1
       let pa := CodeGen.visitExprList 1 st1 [.num 1]
       let ov := CodeGen.visitExpr 1 pa.1 (.memberAccess (.ident "a") "b")
       (ov.1, ov.2 ++ ".send(" ++ String.intercalate ", " pa.2 ++ ")")) :=
  c4_send_receive_lowering.2.2 0 (CodeGen.initState fun _ => "")
    (.memberAccess (.ident "a") "b") [.num 1] (fun n h => by cases h)

/-- C5 counterexample: in the two-module cycle a.sfn imports b.sfn
imports a.sfn, the raised ImportError message names only the re-imported
path a.sfn and does not carry the other path b.sfn of the cycle,
refuting the claim that the error carries both paths.  (No artifact is
produced: the loader state comes back empty and no emit event occurs.) -/
theorem c5_counterexample_single_path_in_error :
    Loader.loadModule
      (fun p => if p = "a.sfn" then some ⟨[("b.sfn", "b")], "A"⟩
                else if p = "b.sfn" then some ⟨[("a.sfn", "a")], "B"⟩ else none)
      (fun _ => 0) "/tmp" 5 Loader.initLoader "a.sfn" "a" none =
      (.error (.circular "Circular import detected: a.sfn"), Loader.initLoader,
        [.parsed "a.sfn", .parsed "b.sfn"]) ∧
    strContains "Circular import detected: a.sfn" "b.sfn" = false ∧
    strContains "Circular import detected: a.sfn" "a.sfn" = true := by
  refine ⟨rfl, by decide, by decide⟩

set_option maxHeartbeats 1600000 in
/-- C5 (amended): loading either end of a two-module import cycle raises
an ImportError carrying the one re-imported source path (the module that
closes the cycle), detected at the import statement that closes the
cycle; the loading marks are unwound by the finally blocks, no module of
the cycle is cached, and no code generation happens (the trace holds the
two parse events and no emit event). -/
theorem c5_circular_import_detected :
    ∀ (fs : String → Option Loader.ModSrc) (pyHash : String → Nat)
      (tempDir : String) (fuel : Nat) (a b aliasA aliasB ca cb : String),
      a.startsWith "sailfin/" = false →
      b.startsWith "sailfin/" = false →
      a ≠ b →
      fs a = some ⟨[(b, aliasB)], ca⟩ →
      fs b = some ⟨[(a, aliasA)], cb⟩ →
      Loader.loadModule fs pyHash tempDir (fuel + 5) Loader.initLoader a aliasA none =
        (.error (.circular ("Circular import detected: " ++ a)), Loader.initLoader,
          [.parsed a, .parsed b]) := by
  intro fs pyHash tempDir fuel a b aliasA aliasB ca cb ha hb hab hfa hfb
  have hab2 : b ≠ a := Ne.symm hab
  have l1 : Loader.loadModule fs pyHash tempDir (fuel + 1)
      ⟨[], [a, b], []⟩ a aliasA (some b) =
      (.error (.circular ("Circular import detected: " ++ a)),
        ⟨[], [a, b], []⟩, []) := by
    simp [Loader.loadModule, ha, hfa]
  have p2 : Loader.processImports fs pyHash tempDir (fuel + 2)
      ⟨[], [a, b], []⟩ [(a, aliasA)] b =
      (.error (.circular ("Circular import detected: " ++ a)),
        ⟨[], [a, b], []⟩, []) := by
    simp [Loader.processImports, l1]
  have l2 : Loader.loadModule fs pyHash tempDir (fuel + 3)
      ⟨[], [a], []⟩ b aliasB (some a) =
      (.error (.circular ("Circular import detected: " ++ a)),
        ⟨[], [a], []⟩, [.parsed b]) := by
    simp [Loader.loadModule, hb, hfb, hab, hab2, p2, Loader.discardLoading]
  have p1 : Loader.processImports fs pyHash tempDir (fuel + 4)
      ⟨[], [a], []⟩ [(b, aliasB)] a =
      (.error (.circular ("Circular import detected: " ++ a)),
        ⟨[], [a], []⟩, [.parsed b]) := by
    simp [Loader.processImports, l2]
  simp [Loader.loadModule, ha, hfa, p1, Loader.initLoader,
    Loader.discardLoading, hab, hab2]

/-- Witness for C5 at the concrete cycle of the counterexample input. -/
theorem c5_circular_import_witness :
    Loader.loadModule
      (fun p => if p = "a.sfn" then some ⟨[("b.sfn", "bb")], "A"⟩
                else if p = "b.sfn" then some ⟨[("a.sfn", "aa")], "B"⟩ else none)
      (fun _ => 1) "/var/tmp" 9 Loader.initLoader "a.sfn" "aa" none =
      (.error (.circular ("Circular import detected: " ++ "a.sfn")),
        Loader.initLoader, [.parsed "a.sfn", .parsed "b.sfn"]) :=
  c5_circular_import_detected
    (fun p => if p = "a.sfn" then some ⟨[("b.sfn", "bb")], "A"⟩
              else if p = "b.sfn" then some ⟨[("a.sfn", "aa")], "B"⟩ else none)
    (fun _ => 1) "/var/tmp" 4 "a.sfn" "b.sfn" "aa" "bb" "A" "B"
    (by decide) (by decide) (by decide) (by decide) (by decide)

theorem lookup_append_single_ne {α : Type} (l : List (String × α)) (k key : String)
    (v : α) (h : k ≠ key) : (l ++ [(key, v)]).lookup k = l.lookup k := by
  induction l with
  | nil =>
    have hb : (k == key) = false := beq_eq_false_iff_ne.mpr h
    simp [List.lookup, hb]
  | cons p rest ih =>
    rcases p with ⟨k0, v0⟩
    cases hb : (k == k0) <;> simp [List.lookup, hb, ih]

theorem lookup_append_single_self {α : Type} (l : List (String × α)) (k : String)
    (v : α) (h : l.lookup k = none) : (l ++ [(k, v)]).lookup k = some v := by
  induction l with
  | nil => simp [List.lookup]
  | cons p rest ih =>
    rcases p with ⟨k0, v0⟩
    cases hb : (k == k0)
    · simp only [List.cons_append, List.lookup, hb] at h ⊢
      exact ih h
    · simp only [List.lookup, hb] at h
      exact Option.noConfusion h

/-- Loading-set bookkeeping of the loader: a call never removes another
key from the loading set and never changes the cache entry of a key that
is already marked as loading (the circular-import guard fires before any
caching of that key could happen). -/
theorem loader_preserves_marked :
    ∀ (fuel : Nat) (fs : String → Option Loader.ModSrc) (pyHash : String → Nat)
      (tempDir : String),
      (∀ st source aliasName cf r st2 ev,
        Loader.loadModule fs pyHash tempDir fuel st source aliasName cf = (r, st2, ev) →
        ∀ k, st.loadingModules.contains k = true →
          st2.loadingModules.contains k = true ∧
          st2.loadedModules.lookup k = st.loadedModules.lookup k) ∧
      (∀ st imps cf r st2 ev,
        Loader.processImports fs pyHash tempDir fuel st imps cf = (r, st2, ev) →
        ∀ k, st.loadingModules.contains k = true →
          st2.loadingModules.contains k = true ∧
          st2.loadedModules.lookup k = st.loadedModules.lookup k) := by
  intro fuel fs pyHash tempDir
  induction fuel with
  | zero =>
    constructor
    · intro st source aliasName cf r st2 ev h k hk
      simp only [Loader.loadModule, Prod.mk.injEq] at h
      obtain ⟨-, h2, -⟩ := h
      subst h2
      exact ⟨hk, rfl⟩
    · intro st imps cf r st2 ev h k hk
      simp only [Loader.processImports, Prod.mk.injEq] at h
      obtain ⟨-, h2, -⟩ := h
      subst h2
      exact ⟨hk, rfl⟩
  | succ f ih =>
    constructor
    · intro st source aliasName cf r stF ev h k hk
      simp only [Loader.loadModule] at h
      split at h
      · simp only [Prod.mk.injEq] at h
        obtain ⟨-, h2, -⟩ := h
        subst h2
        exact ⟨hk, rfl⟩
      · split at h
        · simp only [Prod.mk.injEq] at h
          obtain ⟨-, h2, -⟩ := h
          subst h2
          exact ⟨hk, rfl⟩
        · rename_i m _
          split at h
          · simp only [Prod.mk.injEq] at h
            obtain ⟨-, h2, -⟩ := h
            subst h2
            exact ⟨hk, rfl⟩
          · rename_i hlook
            split at h
            · simp only [Prod.mk.injEq] at h
              obtain ⟨-, h2, -⟩ := h
              subst h2
              exact ⟨hk, rfl⟩
            · rename_i hcon
              have hkne : k ≠ source := by
                intro hkk
                rw [hkk] at hk
                rw [hk] at hcon
                exact hcon rfl
              have hk1 : (st.loadingModules ++ [source]).contains k = true := by
                simp only [List.contains, List.elem_eq_mem, List.mem_append, List.mem_singleton,
                  decide_eq_true_eq] at hk ⊢
                exact Or.inl hk
              split at h
              · rename_i e st3 ev2 hp
                simp only [Prod.mk.injEq] at h
                obtain ⟨-, h2, -⟩ := h
                subst h2
                have hm := ih.2 { st with
                    loadingModules := st.loadingModules ++ [source] }
                  m.imports source _ _ _ hp k hk1
                refine ⟨?_, hm.2⟩
                have hmc := hm.1
                simp only [Loader.discardLoading, List.contains, List.elem_eq_mem, List.mem_filter,
                  decide_eq_true_eq, ne_eq] at hmc ⊢
                exact ⟨hmc, hkne⟩
              · rename_i u st3 ev2 hp
                simp only [Prod.mk.injEq] at h
                obtain ⟨-, h2, -⟩ := h
                subst h2
                have hm := ih.2 { st with
                    loadingModules := st.loadingModules ++ [source] }
                  m.imports source _ _ _ hp k hk1
                constructor
                · have hmc := hm.1
                  simp only [Loader.discardLoading, List.contains, List.elem_eq_mem, List.mem_filter,
                    decide_eq_true_eq, ne_eq] at hmc ⊢
                  exact ⟨hmc, hkne⟩
                · simp only [Loader.discardLoading]
                  rw [lookup_append_single_ne _ _ _ _ hkne]
                  exact hm.2
    · intro st imps cf r stF ev h k hk
      simp only [Loader.processImports] at h
      split at h
      · simp only [Prod.mk.injEq] at h
        obtain ⟨-, h2, -⟩ := h
        subst h2
        exact ⟨hk, rfl⟩
      · rename_i src0 al0 rest
        split at h
        · rename_i e st1 ev1 hp
          simp only [Prod.mk.injEq] at h
          obtain ⟨-, h2, -⟩ := h
          subst h2
          exact ih.1 st src0 al0 _ _ _ _ hp k hk
        · rename_i u st1 ev1 hp
          rcases hq : Loader.processImports fs pyHash tempDir f st1 rest cf with ⟨r2, st2, ev2⟩
          rw [hq] at h
          simp only [Prod.mk.injEq] at h
          obtain ⟨-, h2, -⟩ := h
          subst h2
          have ha := ih.1 st src0 al0 _ _ _ _ hp k hk
          have hb := ih.2 st1 rest cf _ _ _ hq k ha.1
          exact ⟨hb.1, hb.2.trans ha.2⟩

set_option maxHeartbeats 800000 in
/-- C7: a successful non-builtin load installs exactly one
(module_name, temp_file) cache entry for the resolved path, and any later
load of the same path in the same session hits that cache: it returns the
cached artifact, leaves the loader state unchanged, and performs no parse
or code-generation work (empty pipeline trace). -/
theorem c7_module_cache_idempotent
    (fs : String → Option Loader.ModSrc) (pyHash : String → Nat) (tempDir : String)
    (fuel : Nat) (st : Loader.LoaderState) (source aliasName : String)
    (cf : Option String) (res : Loader.LoadResult)
    (st1 : Loader.LoaderState) (ev1 : List Loader.LoadEv)
    (hnb : source.startsWith "sailfin/" = false)
    (h : Loader.loadModule fs pyHash tempDir fuel st source aliasName cf =
      (.ok res, st1, ev1)) :
    ∃ mn tf, st1.loadedModules.lookup source = some (mn, tf) ∧
      ∀ fuel2 cf2,
        Loader.loadModule fs pyHash tempDir (fuel2 + 1) st1 source aliasName cf2 =
          (.ok (.cachedExec mn tf aliasName), st1, []) := by
  cases fuel with
  | zero => simp [Loader.loadModule] at h
  | succ f =>
    simp only [Loader.loadModule] at h
    split at h
    · rename_i hst
      rw [hst] at hnb
      exact Bool.noConfusion hnb
    · split at h
      · simp at h
      · rename_i m hfs
        split at h
        · rename_i moduleName tempFile hlook
          simp only [Prod.mk.injEq] at h
          obtain ⟨-, h2, -⟩ := h
          subst h2
          exact ⟨moduleName, tempFile, hlook,
            fun fuel2 cf2 => by simp [Loader.loadModule, hnb, hfs, hlook]⟩
        · rename_i hlook
          split at h
          · simp at h
          · rename_i hcon
            split at h
            · simp at h
            · rename_i u st2 ev2 hp
              simp only [Prod.mk.injEq] at h
              obtain ⟨-, h2, -⟩ := h
              subst h2
              have hmark : ({ st with
                  loadingModules := st.loadingModules ++ [source] } :
                  Loader.LoaderState).loadingModules.contains source = true := by
                simp [List.contains, List.elem_eq_mem]
              have hm := (loader_preserves_marked f fs pyHash tempDir).2
                { st with loadingModules := st.loadingModules ++ [source] }
                m.imports source _ _ _ hp source hmark
              have hnone : st2.loadedModules.lookup source = none := hm.2.trans hlook
              have hcache : (st2.loadedModules ++
                  [(source,
                    "sailfin_module_" ++ aliasName ++ "_" ++
                      toString (pyHash source % 1000000),
                    tempDir ++ "/" ++
                      ("sailfin_module_" ++ aliasName ++ "_" ++
                        toString (pyHash source % 1000000)) ++ ".py")]).lookup source =
                  some ("sailfin_module_" ++ aliasName ++ "_" ++
                      toString (pyHash source % 1000000),
                    tempDir ++ "/" ++
                      ("sailfin_module_" ++ aliasName ++ "_" ++
                        toString (pyHash source % 1000000)) ++ ".py") :=
                lookup_append_single_self _ _ _ hnone
              refine ⟨_, _, hcache, fun fuel2 cf2 => ?_⟩
              simp [Loader.loadModule, Loader.discardLoading, hnb, hfs, hcache]

/-- Witness for C7: loading m.sfn once caches
(sailfin_module_m_7, /tmp/sailfin_module_m_7.py), and a second load
returns exactly that cached artifact with no pipeline work. -/
theorem c7_module_cache_witness :
    ∃ mn tf,
      (Loader.LoaderState.mk
        [("m.sfn", "sailfin_module_m_7", "/tmp/sailfin_module_m_7.py")] []
        ["/tmp/sailfin_module_m_7.py"]).loadedModules.lookup "m.sfn" = some (mn, tf) ∧
      ∀ fuel2 cf2,
        Loader.loadModule fsOne (fun _ => 7) "/tmp" (fuel2 + 1)
          (Loader.LoaderState.mk
            [("m.sfn", "sailfin_module_m_7", "/tmp/sailfin_module_m_7.py")] []
            ["/tmp/sailfin_module_m_7.py"]) "m.sfn" "m" cf2 =
          (.ok (.cachedExec mn tf "m"),
            Loader.LoaderState.mk
              [("m.sfn", "sailfin_module_m_7", "/tmp/sailfin_module_m_7.py")] []
              ["/tmp/sailfin_module_m_7.py"], []) :=
  c7_module_cache_idempotent fsOne (fun _ => 7) "/tmp" 2 Loader.initLoader
    "m.sfn" "m" none (.embedded "m" "m.sfn" "codeM") _ _ (by decide) rfl

/-- The validator always restores current_type_params on exit: whatever a
visit does internally, the set it hands back is the set it was given. -/
theorem validate_preserves_params :
    ∀ fuel : Nat,
      (∀ params node p2 tr,
        Validator.validate fuel params node = .ok (p2, tr) → p2 = params) ∧
      (∀ params nodes p2 tr,
        Validator.validateList fuel params nodes = .ok (p2, tr) → p2 = params) := by
  intro fuel
  induction fuel with
  | zero =>
    constructor
    · intro params node p2 tr h
      simp [Validator.validate] at h
    · intro params nodes p2 tr h
      simp [Validator.validateList] at h
  | succ f ih =>
    constructor
    · intro params node p2 tr h
      cases node with
      | program statements =>
        simp only [Validator.validate] at h
        exact ih.2 params statements p2 tr h
      | functionDeclaration name tps prms body =>
        simp only [Validator.validate] at h
        split at h
        · simp at h
        · split at h
          · simp at h
          · split at h
            · simp at h
            · rename_i tr1 _ p1 tr2 hv
              simp only [Except.ok.injEq, Prod.mk.injEq] at h
              obtain ⟨h1, -⟩ := h
              subst h1
              exact ih.2 params body _ tr2 hv
      | methodDeclaration name tps prms body =>
        simp only [Validator.validate] at h
        split at h
        · simp at h
        · split at h
          · simp at h
          · split at h
            · simp at h
            · rename_i tr1 _ p1 tr2 hv
              simp only [Except.ok.injEq, Prod.mk.injEq] at h
              obtain ⟨h1, -⟩ := h
              subst h1
              exact ih.2 params body _ tr2 hv
      | structDeclaration name tps members =>
        simp only [Validator.validate] at h
        split at h
        · simp at h
        · split at h
          · simp at h
          · split at h
            · simp at h
            · simp only [Except.ok.injEq, Prod.mk.injEq] at h
              exact h.1.symm
      | fieldDeclaration name fieldType =>
        simp only [Validator.validate] at h
        split at h
        · simp at h
        · split at h
          · simp at h
          · simp only [Except.ok.injEq, Prod.mk.injEq] at h
            exact h.1.symm
      | identifier name =>
        simp only [Validator.validate] at h
        split at h
        · simp at h
        · simp only [Except.ok.injEq, Prod.mk.injEq] at h
          exact h.1.symm
    · intro params nodes p2 tr h
      cases nodes with
      | nil =>
        simp only [Validator.validateList, Except.ok.injEq, Prod.mk.injEq] at h
        exact h.1.symm
      | cons n rest =>
        rcases hv1 : Validator.validate f params n with e | pr1
        · simp [Validator.validateList, hv1] at h
        · rcases pr1 with ⟨p1, tr1⟩
          rcases hv2 : Validator.validateList f p1 rest with e | pr2
          · simp [Validator.validateList, hv1, hv2] at h
          · rcases pr2 with ⟨q2, tr2⟩
            simp only [Validator.validateList, hv1, hv2, Except.ok.injEq,
              Prod.mk.injEq] at h
            have e1 := ih.1 params n p1 tr1 hv1
            have e2 := ih.2 p1 rest q2 tr2 hv2
            exact h.1.symm.trans (e2.trans e1)

/-- Every is_valid_type call the parameter loop makes is logged with
exactly the current_type_params set with which the loop was entered. -/
theorem checkParams_trace_sets :
    ∀ (params : List String) (prms : List (String × Option String))
      (tr : List Validator.TraceEntry),
      Validator.checkParams params prms = .ok tr → ∀ e ∈ tr, e.2 = params := by
  intro params prms
  induction prms with
  | nil =>
    intro tr h
    simp only [Validator.checkParams, Except.ok.injEq] at h
    subst h
    intro e he
    simp at he
  | cons p rest ih =>
    rcases p with ⟨pname, ptype⟩
    intro tr h
    simp only [Validator.checkParams] at h
    split at h
    · simp at h
    · split at h
      · split at h
        · simp at h
        · split at h
          · simp at h
          · rename_i t _ _ tr2 hr
            simp only [Except.ok.injEq] at h
            subst h
            intro e he
            rcases List.mem_cons.mp he with he1 | he2
            · rw [he1]
            · exact ih tr2 hr e he2
      · exact ih tr h

/-- C8 counterexample: validating a generic function declaration
fn id<T>(x: T) never pushes T onto current_type_params: the is_valid_type
call for the parameter type T is made with the empty set in effect (the
trace logs ("T", []), not ("T", ["T"])); the annotation only passes
because the identifier-shaped fallback regex accepts it. -/
theorem c8_counterexample_function_params_not_pushed :
    Validator.validate 3 []
      (.functionDeclaration "id" ["T"] [("x", some "T")] []) =
      .ok ([], [("T", [])]) := rfl

set_option maxHeartbeats 800000 in
/-- C8 (amended): the validator restores current_type_params on exit from
every visit, but only StructDeclaration pushes its type parameters on
entry (the members are validated against the updated set and the previous
set is handed back); FunctionDeclaration and MethodDeclaration ignore
their type-parameter lists entirely, so their parameter types are checked
against the enclosing set only, and every is_valid_type call in the
parameter loop is logged with exactly that enclosing set. -/
theorem c8_type_param_scoping :
    (∀ fuel params node p2 tr,
      Validator.validate fuel params node = .ok (p2, tr) → p2 = params) ∧
    (∀ fuel params name tps members p2 tr,
      Validator.pyIsIdentifier name = true →
      Validator.checkTypeParams tps = .ok () →
      Validator.validateList fuel (Validator.pyUpdate params tps) members =
        .ok (p2, tr) →
      Validator.validate (fuel + 1) params (.structDeclaration name tps members) =
        .ok (params, tr)) ∧
    (∀ fuel params name tps prms body,
      Validator.validate (fuel + 1) params
          (.functionDeclaration name tps prms body) =
        Validator.validate (fuel + 1) params
          (.functionDeclaration name [] prms body) ∧
      Validator.validate (fuel + 1) params
          (.methodDeclaration name tps prms body) =
        Validator.validate (fuel + 1) params
          (.methodDeclaration name [] prms body)) ∧
    (∀ params prms tr,
      Validator.checkParams params prms = .ok tr → ∀ e ∈ tr, e.2 = params) := by
  refine ⟨?_, ?_, ?_, ?_⟩
  · intro fuel params node p2 tr h
    exact (validate_preserves_params fuel).1 params node p2 tr h
  · intro fuel params name tps members p2 tr hn hct hv
    simp [Validator.validate, hn, hct, hv]
  · intro fuel params name tps prms body
    exact ⟨rfl, rfl⟩
  · intro params prms tr h
    exact checkParams_trace_sets params prms tr h

/-- Witness for C8: a struct S<T> around a field of type T, validated in
an ambient set with one name U, checks the field against the pushed set
(the trace logs ("T", ["U", "T"])) and hands the ambient set ["U"] back. -/
theorem c8_type_param_scoping_witness :
    Validator.validate 3 ["U"]
      (.structDeclaration "S" ["T"] [.fieldDeclaration "f" "T"]) =
      .ok (["U"], [("T", ["U", "T"])]) :=
  c8_type_param_scoping.2.1 2 ["U"] "S" ["T"] [.fieldDeclaration "f" "T"]
    _ _ rfl rfl rfl

theorem scanWhile_le (p : Char → Bool) (src : List Char) :
    ∀ fuel pos, pos ≤ SelfLexer.scanWhile p src fuel pos := by
  intro fuel
  induction fuel with
  | zero => intro pos; simp [SelfLexer.scanWhile]
  | succ f ih =>
    intro pos
    simp only [SelfLexer.scanWhile]
    split
    · split
      · exact le_trans (Nat.le_succ pos) (ih (pos + 1))
      · exact le_refl pos
    · exact le_refl pos

theorem scanWhile_bound (p : Char → Bool) (src : List Char) :
    ∀ fuel pos, pos ≤ src.length →
      SelfLexer.scanWhile p src fuel pos ≤ src.length := by
  intro fuel
  induction fuel with
  | zero => intro pos h; simpa [SelfLexer.scanWhile] using h
  | succ f ih =>
    intro pos h
    simp only [SelfLexer.scanWhile]
    split
    · split
      · exact ih (pos + 1) (by omega)
      · exact h
    · exact h

theorem scanWhile_lt (p : Char → Bool) (src : List Char) (fuel pos : Nat)
    (h : pos < src.length) (hc : p (src.get ⟨pos, h⟩) = true) (hf : 0 < fuel) :
    pos < SelfLexer.scanWhile p src fuel pos := by
  cases fuel with
  | zero => omega
  | succ f =>
    simp only [SelfLexer.scanWhile]
    rw [dif_pos h, if_pos hc]
    have := scanWhile_le p src f (pos + 1)
    omega

theorem count_take_succ_ne (src : List Char) (pos : Nat) (h : pos < src.length)
    (hne : src.get ⟨pos, h⟩ ≠ '\n') :
    ((src.take (pos + 1)).count '\n') = (src.take pos).count '\n' := by
  have hb : ('\n' == src[pos]) = false :=
    beq_eq_false_iff_ne.mpr (fun he => hne he.symm)
  rw [List.take_succ, List.getElem?_eq_getElem h, List.count_append]
  simp [List.count_cons, hb]
  exact hne

theorem count_take_succ_eq (src : List Char) (pos : Nat) (h : pos < src.length)
    (heq : src.get ⟨pos, h⟩ = '\n') :
    ((src.take (pos + 1)).count '\n') = (src.take pos).count '\n' + 1 := by
  have hb : ('\n' == src[pos]) = true := beq_iff_eq.mpr heq.symm
  rw [List.take_succ, List.getElem?_eq_getElem h, List.count_append]
  simp [List.count_cons, hb]
  exact heq

theorem scanWhile_count (p : Char → Bool) (hp : p '\n' = false) (src : List Char) :
    ∀ fuel pos, pos ≤ src.length →
      ((src.take (SelfLexer.scanWhile p src fuel pos)).count '\n') =
        (src.take pos).count '\n' := by
  intro fuel
  induction fuel with
  | zero => intro pos h; simp [SelfLexer.scanWhile]
  | succ f ih =>
    intro pos h
    simp only [SelfLexer.scanWhile]
    split
    · rename_i hlt
      split
      · rename_i hc
        have hne : src.get ⟨pos, hlt⟩ ≠ '\n' := by
          intro hx
          rw [hx, hp] at hc
          exact Bool.noConfusion hc
        rw [ih (pos + 1) (by omega), count_take_succ_ne src pos hlt hne]
      · rfl
    · rfl

theorem scanWhile_nl_count (src : List Char) :
    ∀ fuel pos, pos ≤ src.length →
      ((src.take (SelfLexer.scanWhile (fun d => d = '\n') src fuel pos)).count '\n') =
        (src.take pos).count '\n' +
          (SelfLexer.scanWhile (fun d => d = '\n') src fuel pos - pos) := by
  intro fuel
  induction fuel with
  | zero => intro pos h; simp [SelfLexer.scanWhile]
  | succ f ih =>
    intro pos h
    simp only [SelfLexer.scanWhile]
    split
    · rename_i hlt
      split
      · rename_i hc
        have hnl : src.get ⟨pos, hlt⟩ = '\n' := by
          simpa using hc
        have hle := scanWhile_le (fun d => d = '\n') src f (pos + 1)
        rw [ih (pos + 1) (by omega), count_take_succ_eq src pos hlt hnl]
        omega
      · simp
    · simp

theorem sliceL_length (src : List Char) (a b : Nat) (hab : a ≤ b)
    (hb : b ≤ src.length) : (BootLexer.sliceL src a b).length = b - a := by
  simp [BootLexer.sliceL]
  omega

theorem take_append_slice (src : List Char) (a b : Nat) (hab : a ≤ b) :
    src.take b = src.take a ++ BootLexer.sliceL src a b := by
  have h := List.take_append_drop a (src.take b)
  rw [List.take_take, Nat.min_eq_left hab] at h
  exact h.symm

theorem count_take_of_slice (src : List Char) (a b : Nat) (hab : a ≤ b) :
    ((src.take b).count '\n') =
      (src.take a).count '\n' + (BootLexer.sliceL src a b).count '\n' := by
  rw [take_append_slice src a b hab, List.count_append]

theorem sliceL_cons (src : List Char) (a b : Nat) (h : a < src.length)
    (hab : a < b) :
    BootLexer.sliceL src a b = src.get ⟨a, h⟩ :: BootLexer.sliceL src (a + 1) b := by
  unfold BootLexer.sliceL
  have hlen : a < (src.take b).length := by
    simp [List.length_take]
    omega
  rw [List.drop_eq_getElem_cons hlen]
  congr 1
  simp [List.getElem_take, List.get_eq_getElem]

theorem sliceL_nil (src : List Char) (a : Nat) :
    BootLexer.sliceL src a a = [] := by
  unfold BootLexer.sliceL
  apply List.drop_eq_nil_of_le
  simp [List.length_take]

theorem sliceL_singleton (src : List Char) (a : Nat) (h : a < src.length) :
    BootLexer.sliceL src a (a + 1) = [src.get ⟨a, h⟩] := by
  rw [sliceL_cons src a (a + 1) h (by omega), sliceL_nil]

theorem sliceL_snoc (src : List Char) (a b : Nat) (hab : a ≤ b)
    (h : b < src.length) :
    BootLexer.sliceL src a (b + 1) =
      BootLexer.sliceL src a b ++ [src.get ⟨b, h⟩] := by
  unfold BootLexer.sliceL
  rw [List.take_succ, List.getElem?_eq_getElem h]
  rw [List.drop_append_of_le_length]
  · simp [List.get_eq_getElem]
  · simp [List.length_take]
    omega

theorem at_lt_of_ne_space (src : List Char) (i : Nat)
    (h : SelfLexer.at_ src i ≠ ' ') : i < src.length := by
  by_contra hge
  exact h (by simp [SelfLexer.at_, List.getD_eq_getElem?_getD,
    List.getElem?_eq_none (Nat.le_of_not_lt hge)])

theorem at_eq_get (src : List Char) (i : Nat) (h : i < src.length) :
    SelfLexer.at_ src i = src.get ⟨i, h⟩ := by
  simp [SelfLexer.at_, List.getD_eq_getElem?_getD, List.getElem?_eq_getElem h,
    List.get_eq_getElem]

theorem stringEnd_spec (src : List Char) :
    ∀ fuel p e, BootLexer.stringEnd src fuel p = some e →
      p ≤ e ∧ e < src.length ∧ SelfLexer.at_ src e = '"' ∧
        ((src.take e).count '\n') = (src.take p).count '\n' := by
  intro fuel
  induction fuel with
  | zero => intro p e h; simp [BootLexer.stringEnd] at h
  | succ f ih =>
    intro p e h
    simp only [BootLexer.stringEnd] at h
    split at h
    · rename_i hlt
      split at h
      · rename_i hq
        simp only [Option.some.injEq] at h
        subst h
        exact ⟨le_refl p, hlt, by rw [at_eq_get src p hlt]; exact hq, rfl⟩
      · rename_i hq
        split at h
        · simp at h
        · rename_i hnl
          split at h
          · split at h
            · rename_i _ hlt2
              split at h
              · simp at h
              · rename_i hnl2
                have hr := ih (p + 2) e h
                refine ⟨by omega, hr.2.1, hr.2.2.1, ?_⟩
                rw [hr.2.2.2, show p + 2 = p + 1 + 1 by omega,
                  count_take_succ_ne src (p + 1) hlt2 hnl2,
                  count_take_succ_ne src p hlt hnl]
            · simp at h
          · rename_i hbs
            have hr := ih (p + 1) e h
            refine ⟨by omega, hr.2.1, hr.2.2.1, ?_⟩
            rw [hr.2.2.2, count_take_succ_ne src p hlt hnl]
    · simp at h

theorem findStarSlash_spec (src : List Char) :
    ∀ fuel p k, BootLexer.findStarSlash src fuel p = some k →
      p ≤ k ∧ k + 1 < src.length := by
  intro fuel
  induction fuel with
  | zero => intro p k h; simp [BootLexer.findStarSlash] at h
  | succ f ih =>
    intro p k h
    simp only [BootLexer.findStarSlash] at h
    split at h
    · rename_i hlt
      split at h
      · simp only [Option.some.injEq] at h
        subst h
        exact ⟨le_refl p, hlt⟩
      · have hr := ih (p + 1) k h
        exact ⟨by omega, hr.2⟩
    · simp at h

theorem twoCharOp_spec (a b : Char) (t v : String)
    (h : BootLexer.twoCharOp a b = some (t, v)) :
    v.toList = [a, b] ∧ b ≠ ' ' ∧ b ≠ '\n' ∧ t ≠ "STRING" := by
  simp only [BootLexer.twoCharOp] at h
  by_cases hk0 : (a = '+' && b = '=') = true
  · rw [if_pos hk0] at h
    simp only [Bool.and_eq_true, decide_eq_true_eq] at hk0
    obtain ⟨ha, hb⟩ := hk0
    subst ha
    subst hb
    injection h with h
    injection h with ht hv
    subst ht
    subst hv
    refine ⟨by decide, by decide, by decide, by decide⟩
  · rw [if_neg hk0] at h
    by_cases hk1 : (a = '-' && b = '=') = true
    · rw [if_pos hk1] at h
      simp only [Bool.and_eq_true, decide_eq_true_eq] at hk1
      obtain ⟨ha, hb⟩ := hk1
      subst ha
      subst hb
      injection h with h
      injection h with ht hv
      subst ht
      subst hv
      refine ⟨by decide, by decide, by decide, by decide⟩
    · rw [if_neg hk1] at h
      by_cases hk2 : (a = '-' && b = '>') = true
      · rw [if_pos hk2] at h
        simp only [Bool.and_eq_true, decide_eq_true_eq] at hk2
        obtain ⟨ha, hb⟩ := hk2
        subst ha
        subst hb
        injection h with h
        injection h with ht hv
        subst ht
        subst hv
        refine ⟨by decide, by decide, by decide, by decide⟩
      · rw [if_neg hk2] at h
        by_cases hk3 : (a = '*' && b = '=') = true
        · rw [if_pos hk3] at h
          simp only [Bool.and_eq_true, decide_eq_true_eq] at hk3
          obtain ⟨ha, hb⟩ := hk3
          subst ha
          subst hb
          injection h with h
          injection h with ht hv
          subst ht
          subst hv
          refine ⟨by decide, by decide, by decide, by decide⟩
        · rw [if_neg hk3] at h
          by_cases hk4 : (a = '/' && b = '=') = true
          · rw [if_pos hk4] at h
            simp only [Bool.and_eq_true, decide_eq_true_eq] at hk4
            obtain ⟨ha, hb⟩ := hk4
            subst ha
            subst hb
            injection h with h
            injection h with ht hv
            subst ht
            subst hv
            refine ⟨by decide, by decide, by decide, by decide⟩
          · rw [if_neg hk4] at h
            by_cases hk5 : (a = '<' && b = '=') = true
            · rw [if_pos hk5] at h
              simp only [Bool.and_eq_true, decide_eq_true_eq] at hk5
              obtain ⟨ha, hb⟩ := hk5
              subst ha
              subst hb
              injection h with h
              injection h with ht hv
              subst ht
              subst hv
              refine ⟨by decide, by decide, by decide, by decide⟩
            · rw [if_neg hk5] at h
              by_cases hk6 : (a = '>' && b = '=') = true
              · rw [if_pos hk6] at h
                simp only [Bool.and_eq_true, decide_eq_true_eq] at hk6
                obtain ⟨ha, hb⟩ := hk6
                subst ha
                subst hb
                injection h with h
                injection h with ht hv
                subst ht
                subst hv
                refine ⟨by decide, by decide, by decide, by decide⟩
              · rw [if_neg hk6] at h
                by_cases hk7 : (a = '=' && b = '=') = true
                · rw [if_pos hk7] at h
                  simp only [Bool.and_eq_true, decide_eq_true_eq] at hk7
                  obtain ⟨ha, hb⟩ := hk7
                  subst ha
                  subst hb
                  injection h with h
                  injection h with ht hv
                  subst ht
                  subst hv
                  refine ⟨by decide, by decide, by decide, by decide⟩
                · rw [if_neg hk7] at h
                  by_cases hk8 : (a = '=' && b = '>') = true
                  · rw [if_pos hk8] at h
                    simp only [Bool.and_eq_true, decide_eq_true_eq] at hk8
                    obtain ⟨ha, hb⟩ := hk8
                    subst ha
                    subst hb
                    injection h with h
                    injection h with ht hv
                    subst ht
                    subst hv
                    refine ⟨by decide, by decide, by decide, by decide⟩
                  · rw [if_neg hk8] at h
                    by_cases hk9 : (a = '!' && b = '=') = true
                    · rw [if_pos hk9] at h
                      simp only [Bool.and_eq_true, decide_eq_true_eq] at hk9
                      obtain ⟨ha, hb⟩ := hk9
                      subst ha
                      subst hb
                      injection h with h
                      injection h with ht hv
                      subst ht
                      subst hv
                      refine ⟨by decide, by decide, by decide, by decide⟩
                    · rw [if_neg hk9] at h
                      by_cases hk10 : (a = '&' && b = '&') = true
                      · rw [if_pos hk10] at h
                        simp only [Bool.and_eq_true, decide_eq_true_eq] at hk10
                        obtain ⟨ha, hb⟩ := hk10
                        subst ha
                        subst hb
                        injection h with h
                        injection h with ht hv
                        subst ht
                        subst hv
                        refine ⟨by decide, by decide, by decide, by decide⟩
                      · rw [if_neg hk10] at h
                        by_cases hk11 : (a = '|' && b = '|') = true
                        · rw [if_pos hk11] at h
                          simp only [Bool.and_eq_true, decide_eq_true_eq] at hk11
                          obtain ⟨ha, hb⟩ := hk11
                          subst ha
                          subst hb
                          injection h with h
                          injection h with ht hv
                          subst ht
                          subst hv
                          refine ⟨by decide, by decide, by decide, by decide⟩
                        · rw [if_neg hk11] at h
                          exact Option.noConfusion h

theorem oneCharOp_type_ne (c : Char) (t : String)
    (h : BootLexer.oneCharOp c = some t) : t ≠ "STRING" := by
  simp only [BootLexer.oneCharOp] at h
  by_cases hk0 : c = '+'
  · rw [if_pos hk0] at h
    injection h with h
    subst h
    decide
  · rw [if_neg hk0] at h
    by_cases hk1 : c = '-'
    · rw [if_pos hk1] at h
      injection h with h
      subst h
      decide
    · rw [if_neg hk1] at h
      by_cases hk2 : c = '*'
      · rw [if_pos hk2] at h
        injection h with h
        subst h
        decide
      · rw [if_neg hk2] at h
        by_cases hk3 : c = '/'
        · rw [if_pos hk3] at h
          injection h with h
          subst h
          decide
        · rw [if_neg hk3] at h
          by_cases hk4 : c = '='
          · rw [if_pos hk4] at h
            injection h with h
            subst h
            decide
          · rw [if_neg hk4] at h
            by_cases hk5 : c = '?'
            · rw [if_pos hk5] at h
              injection h with h
              subst h
              decide
            · rw [if_neg hk5] at h
              by_cases hk6 : c = '('
              · rw [if_pos hk6] at h
                injection h with h
                subst h
                decide
              · rw [if_neg hk6] at h
                by_cases hk7 : c = ')'
                · rw [if_pos hk7] at h
                  injection h with h
                  subst h
                  decide
                · rw [if_neg hk7] at h
                  by_cases hk8 : c = '\x7b'
                  · rw [if_pos hk8] at h
                    injection h with h
                    subst h
                    decide
                  · rw [if_neg hk8] at h
                    by_cases hk9 : c = '\x7d'
                    · rw [if_pos hk9] at h
                      injection h with h
                      subst h
                      decide
                    · rw [if_neg hk9] at h
                      by_cases hk10 : c = '['
                      · rw [if_pos hk10] at h
                        injection h with h
                        subst h
                        decide
                      · rw [if_neg hk10] at h
                        by_cases hk11 : c = ']'
                        · rw [if_pos hk11] at h
                          injection h with h
                          subst h
                          decide
                        · rw [if_neg hk11] at h
                          by_cases hk12 : c = ';'
                          · rw [if_pos hk12] at h
                            injection h with h
                            subst h
                            decide
                          · rw [if_neg hk12] at h
                            by_cases hk13 : c = ','
                            · rw [if_pos hk13] at h
                              injection h with h
                              subst h
                              decide
                            · rw [if_neg hk13] at h
                              by_cases hk14 : c = '.'
                              · rw [if_pos hk14] at h
                                injection h with h
                                subst h
                                decide
                              · rw [if_neg hk14] at h
                                by_cases hk15 : c = ':'
                                · rw [if_pos hk15] at h
                                  injection h with h
                                  subst h
                                  decide
                                · rw [if_neg hk15] at h
                                  by_cases hk16 : c = '@'
                                  · rw [if_pos hk16] at h
                                    injection h with h
                                    subst h
                                    decide
                                  · rw [if_neg hk16] at h
                                    by_cases hk17 : c = '<'
                                    · rw [if_pos hk17] at h
                                      injection h with h
                                      subst h
                                      decide
                                    · rw [if_neg hk17] at h
                                      by_cases hk18 : c = '>'
                                      · rw [if_pos hk18] at h
                                        injection h with h
                                        subst h
                                        decide
                                      · rw [if_neg hk18] at h
                                        by_cases hk19 : c = '!'
                                        · rw [if_pos hk19] at h
                                          injection h with h
                                          subst h
                                          decide
                                        · rw [if_neg hk19] at h
                                          by_cases hk20 : c = '|'
                                          · rw [if_pos hk20] at h
                                            injection h with h
                                            subst h
                                            decide
                                          · rw [if_neg hk20] at h
                                            by_cases hk21 : c = '&'
                                            · rw [if_pos hk21] at h
                                              injection h with h
                                              subst h
                                              decide
                                            · rw [if_neg hk21] at h
                                              exact Option.noConfusion h

theorem reservedType_ne_string (s t : String)
    (h : BootLexer.reservedType s = some t) : t ≠ "STRING" := by
  simp only [BootLexer.reservedType] at h
  by_cases hk0 : s = "fn"
  · rw [if_pos hk0] at h
    injection h with h
    subst h
    decide
  · rw [if_neg hk0] at h
    by_cases hk1 : s = "lambda"
    · rw [if_pos hk1] at h
      injection h with h
      subst h
      decide
    · rw [if_neg hk1] at h
      by_cases hk2 : s = "print"
      · rw [if_pos hk2] at h
        injection h with h
        subst h
        decide
      · rw [if_neg hk2] at h
        by_cases hk3 : s = "info"
        · rw [if_pos hk3] at h
          injection h with h
          subst h
          decide
        · rw [if_neg hk3] at h
          by_cases hk4 : s = "let"
          · rw [if_pos hk4] at h
            injection h with h
            subst h
            decide
          · rw [if_neg hk4] at h
            by_cases hk5 : s = "mut"
            · rw [if_pos hk5] at h
              injection h with h
              subst h
              decide
            · rw [if_neg hk5] at h
              by_cases hk6 : s = "return"
              · rw [if_pos hk6] at h
                injection h with h
                subst h
                decide
              · rw [if_neg hk6] at h
                by_cases hk7 : s = "if"
                · rw [if_pos hk7] at h
                  injection h with h
                  subst h
                  decide
                · rw [if_neg hk7] at h
                  by_cases hk8 : s = "else"
                  · rw [if_pos hk8] at h
                    injection h with h
                    subst h
                    decide
                  · rw [if_neg hk8] at h
                    by_cases hk9 : s = "match"
                    · rw [if_pos hk9] at h
                      injection h with h
                      subst h
                      decide
                    · rw [if_neg hk9] at h
                      by_cases hk10 : s = "const"
                      · rw [if_pos hk10] at h
                        injection h with h
                        subst h
                        decide
                      · rw [if_neg hk10] at h
                        by_cases hk11 : s = "async"
                        · rw [if_pos hk11] at h
                          injection h with h
                          subst h
                          decide
                        · rw [if_neg hk11] at h
                          by_cases hk12 : s = "await"
                          · rw [if_pos hk12] at h
                            injection h with h
                            subst h
                            decide
                          · rw [if_neg hk12] at h
                            by_cases hk13 : s = "import"
                            · rw [if_pos hk13] at h
                              injection h with h
                              subst h
                              decide
                            · rw [if_neg hk13] at h
                              by_cases hk14 : s = "from"
                              · rw [if_pos hk14] at h
                                injection h with h
                                subst h
                                decide
                              · rw [if_neg hk14] at h
                                by_cases hk15 : s = "struct"
                                · rw [if_pos hk15] at h
                                  injection h with h
                                  subst h
                                  decide
                                · rw [if_neg hk15] at h
                                  by_cases hk16 : s = "enum"
                                  · rw [if_pos hk16] at h
                                    injection h with h
                                    subst h
                                    decide
                                  · rw [if_neg hk16] at h
                                    by_cases hk17 : s = "interface"
                                    · rw [if_pos hk17] at h
                                      injection h with h
                                      subst h
                                      decide
                                    · rw [if_neg hk17] at h
                                      by_cases hk18 : s = "implements"
                                      · rw [if_pos hk18] at h
                                        injection h with h
                                        subst h
                                        decide
                                      · rw [if_neg hk18] at h
                                        by_cases hk19 : s = "throw"
                                        · rw [if_pos hk19] at h
                                          injection h with h
                                          subst h
                                          decide
                                        · rw [if_neg hk19] at h
                                          by_cases hk20 : s = "try"
                                          · rw [if_pos hk20] at h
                                            injection h with h
                                            subst h
                                            decide
                                          · rw [if_neg hk20] at h
                                            by_cases hk21 : s = "catch"
                                            · rw [if_pos hk21] at h
                                              injection h with h
                                              subst h
                                              decide
                                            · rw [if_neg hk21] at h
                                              by_cases hk22 : s = "finally"
                                              · rw [if_pos hk22] at h
                                                injection h with h
                                                subst h
                                                decide
                                              · rw [if_neg hk22] at h
                                                by_cases hk23 : s = "for"
                                                · rw [if_pos hk23] at h
                                                  injection h with h
                                                  subst h
                                                  decide
                                                · rw [if_neg hk23] at h
                                                  by_cases hk24 : s = "while"
                                                  · rw [if_pos hk24] at h
                                                    injection h with h
                                                    subst h
                                                    decide
                                                  · rw [if_neg hk24] at h
                                                    by_cases hk25 : s = "in"
                                                    · rw [if_pos hk25] at h
                                                      injection h with h
                                                      subst h
                                                      decide
                                                    · rw [if_neg hk25] at h
                                                      by_cases hk26 : s = "test"
                                                      · rw [if_pos hk26] at h
                                                        injection h with h
                                                        subst h
                                                        decide
                                                      · rw [if_neg hk26] at h
                                                        by_cases hk27 : s = "assert"
                                                        · rw [if_pos hk27] at h
                                                          injection h with h
                                                          subst h
                                                          decide
                                                        · rw [if_neg hk27] at h
                                                          by_cases hk28 : s = "is"
                                                          · rw [if_pos hk28] at h
                                                            injection h with h
                                                            subst h
                                                            decide
                                                          · rw [if_neg hk28] at h
                                                            by_cases hk29 : s = "new"
                                                            · rw [if_pos hk29] at h
                                                              injection h with h
                                                              subst h
                                                              decide
                                                            · rw [if_neg hk29] at h
                                                              exact Option.noConfusion h

theorem identType_ne_string (s : String) :
    BootLexer.identType s ≠ "STRING" := by
  unfold BootLexer.identType
  split
  · decide
  · rcases hr : BootLexer.reservedType s with _ | t
    · decide
    · simpa using reservedType_ne_string s t hr

theorem lineStartOf_le (src : List Char) : ∀ pos, lineStartOf src pos ≤ pos := by
  intro pos
  induction pos with
  | zero => simp [lineStartOf]
  | succ p ih =>
    simp only [lineStartOf]
    split
    · exact le_refl _
    · omega

theorem afterNewlines_zero (src : List Char) : afterNewlines src 0 = 0 := by
  cases src <;> rfl

theorem afterNewlines_succ_of_get :
    ∀ (src : List Char) (pos k : Nat) (h : pos < src.length),
      src.get ⟨pos, h⟩ = '\n' → ((src.take pos).count '\n') = k →
      afterNewlines src (k + 1) = pos + 1 := by
  intro src
  induction src with
  | nil => intro pos k h; simp at h
  | cons c cs ih =>
    intro pos k h hc hk
    cases pos with
    | zero =>
      have hc0 : c = '\n' := by simpa using hc
      have hk0 : k = 0 := by simpa using hk.symm
      subst hk0
      simp [afterNewlines, hc0, afterNewlines_zero]
    | succ p =>
      have hlt : p < cs.length := by simpa using h
      have hget : cs.get ⟨p, hlt⟩ = '\n' := by
        simpa [List.get_eq_getElem] using hc
      rw [List.take_succ_cons, List.count_cons] at hk
      by_cases hcnl : c = '\n'
      · cases k with
        | zero => simp [hcnl] at hk
        | succ k2 =>
          have hk2 : (cs.take p).count '\n' = k2 := by
            simp [hcnl] at hk
            omega
          have hr := ih p k2 hlt hget hk2
          simp [afterNewlines, hcnl, hr]
          omega
      · have hbf : (c == '\n') = false := beq_eq_false_iff_ne.mpr hcnl
        simp [hbf] at hk
        have hr := ih p k hlt hget hk
        simp [afterNewlines, hcnl, hr]
        omega

theorem afterNewlines_count (src : List Char) :
    ∀ pos, pos ≤ src.length →
      afterNewlines src ((src.take pos).count '\n') = lineStartOf src pos := by
  intro pos
  induction pos with
  | zero => intro _; simpa [lineStartOf] using afterNewlines_zero src
  | succ p ih =>
    intro h
    have hp : p < src.length := by omega
    by_cases hnl : src.get ⟨p, hp⟩ = '\n'
    · have hnl2 : src[p] = '\n' := hnl
      rw [count_take_succ_eq src p hp hnl,
        afterNewlines_succ_of_get src p _ hp hnl rfl]
      simp [lineStartOf, at_eq_get src p hp, hnl2]
    · have hnl2 : ¬src[p] = '\n' := hnl
      rw [count_take_succ_ne src p hp hnl, ih (by omega)]
      simp [lineStartOf, at_eq_get src p hp, hnl2]

theorem posOf_computeColumn (src : List Char) (pos : Nat) (h : pos ≤ src.length) :
    posOf src (1 + (src.take pos).count '\n') (computeColumn src pos) = pos := by
  unfold posOf computeColumn
  have h1 : 1 + (src.take pos).count '\n' - 1 = (src.take pos).count '\n' := by
    omega
  rw [h1, afterNewlines_count src pos h]
  have h2 := lineStartOf_le src pos
  omega

set_option maxHeartbeats 1600000 in
/-- Every token the PLY scanning loop emits is well-placed: its line field
counts the newlines before its match position and its value is
recoverable from the source at that position. -/
theorem plyGo_tokens_ok (src : List Char) :
    ∀ fuel pos lineno acc toks,
      BootLexer.plyGo src fuel pos lineno acc = .ok toks →
      pos ≤ src.length →
      lineno = 1 + ((src.take pos).count '\n') →
      (∀ t ∈ acc, RawOK src t) →
      ∀ t ∈ toks, RawOK src t := by
  intro fuel
  induction fuel with
  | zero => intro pos lineno acc toks h _ _ _; simp [BootLexer.plyGo] at h
  | succ f ih =>
    intro pos lineno acc toks h hpos hline hacc
    simp only [BootLexer.plyGo] at h
    split at h
    case isFalse =>
      simp only [Except.ok.injEq] at h
      subst h
      exact hacc
    case isTrue hlt =>
    split at h
    · rename_i hws
      have hne : src.get ⟨pos, hlt⟩ ≠ '\n' := by
        rcases (by simpa using hws :
            src.get ⟨pos, hlt⟩ = ' ' ∨ src.get ⟨pos, hlt⟩ = '\t') with h1 | h1 <;>
          (rw [h1]; decide)
      refine ih _ _ _ _ h (by omega) ?_ hacc
      rw [hline, count_take_succ_ne src pos hlt hne]
    · rename_i hws
      split at h
      · rename_i hid
        have hsl := scanWhile_le BootLexer.identChar src (src.length + 1) pos
        have hsb := scanWhile_bound BootLexer.identChar src (src.length + 1) pos hpos
        have hcnt := scanWhile_count BootLexer.identChar (by decide) src
          (src.length + 1) pos hpos
        set E := SelfLexer.scanWhile BootLexer.identChar src (src.length + 1) pos with hE
        refine ih _ _ _ _ h hsb ?_ ?_
        · rw [hline, hcnt]
        · intro t ht
          rcases List.mem_append.mp ht with h1 | h1
          · exact hacc t h1
          · rw [List.mem_singleton.mp h1]
            refine ⟨hline, le_of_lt hlt,
              Or.inl ⟨String.mk (BootLexer.sliceL src pos E), rfl,
                identType_ne_string _, ?_⟩⟩
            have hlen : (BootLexer.sliceL src pos E).length = E - pos :=
              sliceL_length src pos E hsl hsb
            show BootLexer.sliceL src pos (pos + (BootLexer.sliceL src pos E).length) = _
            rw [hlen, show pos + (E - pos) = E from by omega]
            rfl
      · rename_i hid
        split at h
        · rename_i hdg
          have hp1l := scanWhile_le BootLexer.isDigit src (src.length + 1) pos
          have hp1b := scanWhile_bound BootLexer.isDigit src (src.length + 1) pos hpos
          have hp1g := scanWhile_lt BootLexer.isDigit src (src.length + 1) pos hlt hdg
            (by omega)
          have hc1 := scanWhile_count BootLexer.isDigit (by decide) src
            (src.length + 1) pos hpos
          set P := SelfLexer.scanWhile BootLexer.isDigit src (src.length + 1) pos with hP
          split at h
          · rename_i hdot
            obtain ⟨hdot1, hdot2⟩ := (by simpa using hdot :
              SelfLexer.at_ src P = '.' ∧ BootLexer.isDigit (SelfLexer.at_ src (P + 1)) = true)
            have hp1lt : P < src.length :=
              at_lt_of_ne_space src P (by rw [hdot1]; decide)
            have hgP : src.get ⟨P, hp1lt⟩ = '.' := by
              rw [← at_eq_get src P hp1lt]
              exact hdot1
            have hel := scanWhile_le BootLexer.isDigit src (src.length + 1) (P + 1)
            have heb := scanWhile_bound BootLexer.isDigit src (src.length + 1) (P + 1)
              (by omega)
            have hc3 := scanWhile_count BootLexer.isDigit (by decide) src
              (src.length + 1) (P + 1) (by omega)
            set E := SelfLexer.scanWhile BootLexer.isDigit src (src.length + 1) (P + 1)
              with hE2
            have hc2 : ((src.take (P + 1)).count '\n') = (src.take P).count '\n' :=
              count_take_succ_ne src P hp1lt (by rw [hgP]; decide)
            refine ih _ _ _ _ h heb ?_ ?_
            · rw [hline, hc3, hc2, hc1]
            · intro t ht
              rcases List.mem_append.mp ht with h1 | h1
              · exact hacc t h1
              · rw [List.mem_singleton.mp h1]
                refine ⟨hline, le_of_lt hlt,
                  Or.inr (Or.inr ⟨BootLexer.pyNumber (String.mk (BootLexer.sliceL src pos E)),
                    E - pos, rfl, by omega, ?_⟩)⟩
                rw [show pos + (E - pos) = E from by omega]
          · rename_i hdot
            refine ih _ _ _ _ h hp1b ?_ ?_
            · rw [hline, hc1]
            · intro t ht
              rcases List.mem_append.mp ht with h1 | h1
              · exact hacc t h1
              · rw [List.mem_singleton.mp h1]
                refine ⟨hline, le_of_lt hlt,
                  Or.inr (Or.inr ⟨BootLexer.pyNumber (String.mk (BootLexer.sliceL src pos P)),
                    P - pos, rfl, by omega, ?_⟩)⟩
                rw [show pos + (P - pos) = P from by omega]
        · rename_i hdg
          split at h
          · rename_i hq
            split at h
            · rename_i e2 hse
              obtain ⟨hse1, hse2, hse3, hse4⟩ :=
                stringEnd_spec src (src.length + 1) (pos + 1) e2 hse
              have hge2 : src.get ⟨e2, hse2⟩ = '"' := by
                rw [← at_eq_get src e2 hse2]
                exact hse3
              have hcpos : ((src.take (pos + 1)).count '\n') = (src.take pos).count '\n' :=
                count_take_succ_ne src pos hlt (by rw [hq]; decide)
              have hce2 : ((src.take (e2 + 1)).count '\n') = (src.take e2).count '\n' :=
                count_take_succ_ne src e2 hse2 (by rw [hge2]; decide)
              refine ih _ _ _ _ h (by omega) ?_ ?_
              · rw [hline, hce2, hse4, hcpos]
              · intro t ht
                rcases List.mem_append.mp ht with h1 | h1
                · exact hacc t h1
                · rw [List.mem_singleton.mp h1]
                  refine ⟨hline, le_of_lt hlt,
                    Or.inr (Or.inl ⟨String.mk (BootLexer.sliceL src (pos + 1) e2),
                      rfl, rfl, ?_⟩)⟩
                  have hlen : (BootLexer.sliceL src (pos + 1) e2).length = e2 - (pos + 1) :=
                    sliceL_length src (pos + 1) e2 hse1 (le_of_lt hse2)
                  show BootLexer.sliceL src pos
                    (pos + ((BootLexer.sliceL src (pos + 1) e2).length + 2)) = _
                  rw [hlen, show pos + (e2 - (pos + 1) + 2) = e2 + 1 from by omega,
                    sliceL_cons src pos (e2 + 1) hlt (by omega),
                    sliceL_snoc src (pos + 1) e2 hse1 hse2, hq, hge2]
                  rfl
            · simp at h
          · rename_i hq
            split at h
            · rename_i hnl
              have hsb := scanWhile_bound (fun d => d = '\n') src (src.length + 1) pos hpos
              have hsl := scanWhile_le (fun d => d = '\n') src (src.length + 1) pos
              have hcnt := scanWhile_nl_count src (src.length + 1) pos hpos
              refine ih _ _ _ _ h hsb ?_ hacc
              rw [hcnt]
              omega
            · rename_i hnl
              split at h
              · rename_i hlc
                have hsb := scanWhile_bound (fun d => d ≠ '\n') src (src.length + 1) pos hpos
                refine ih _ _ _ _ h hsb ?_ hacc
                rw [hline,
                  scanWhile_count (fun d => d ≠ '\n') (by decide) src (src.length + 1) pos hpos]
              · rename_i hlc
                split at h
                · rename_i hbc
                  split at h
                  · rename_i k hfs
                    obtain ⟨hk1, hk2⟩ := findStarSlash_spec src (src.length + 1) (pos + 2) k hfs
                    refine ih _ _ _ _ h (by omega) ?_ hacc
                    rw [count_take_of_slice src pos (k + 2) (by omega)]
                    omega
                  · rename_i hfs
                    have hcq : src.get ⟨pos, hlt⟩ = '/' :=
                      (by simpa using hbc :
                        src.get ⟨pos, hlt⟩ = '/' ∧ SelfLexer.at_ src (pos + 1) = '*').1
                    refine ih _ _ _ _ h (by omega) ?_ ?_
                    · rw [hline, count_take_succ_ne src pos hlt (by rw [hcq]; decide)]
                    · intro t ht
                      rcases List.mem_append.mp ht with h1 | h1
                      · exact hacc t h1
                      · rw [List.mem_singleton.mp h1]
                        refine ⟨hline, le_of_lt hlt, Or.inl ⟨"/", rfl,
                          (show ("DIVIDE" : String) ≠ "STRING" by decide), ?_⟩⟩
                        show BootLexer.sliceL src pos (pos + 1) = ['/']
                        rw [sliceL_singleton src pos hlt, hcq]
                · rename_i hbc
                  split at h
                  · rename_i t0 v0 htc
                    obtain ⟨hv, hbsp, hbnl, hts⟩ := twoCharOp_spec _ _ _ _ htc
                    have hlt1 : pos + 1 < src.length := at_lt_of_ne_space src (pos + 1) hbsp
                    have hg1 : src.get ⟨pos + 1, hlt1⟩ = SelfLexer.at_ src (pos + 1) :=
                      (at_eq_get src (pos + 1) hlt1).symm
                    refine ih _ _ _ _ h (by omega) ?_ ?_
                    · rw [hline, show pos + 2 = pos + 1 + 1 from rfl,
                        count_take_succ_ne src (pos + 1) hlt1 (by rw [hg1]; exact hbnl),
                        count_take_succ_ne src pos hlt hnl]
                    · intro t ht
                      rcases List.mem_append.mp ht with h1 | h1
                      · exact hacc t h1
                      · rw [List.mem_singleton.mp h1]
                        refine ⟨hline, le_of_lt hlt, Or.inl ⟨v0, rfl, hts, ?_⟩⟩
                        have hv2 : v0.length = 2 := by
                          have hx : v0.toList.length = 2 := by rw [hv]; rfl
                          exact hx
                        rw [hv2, hv, show pos + 2 = pos + 1 + 1 from rfl,
                          sliceL_snoc src pos (pos + 1) (by omega) hlt1,
                          sliceL_singleton src pos hlt, ← hg1]
                        rfl
                  · rename_i htc
                    split at h
                    · rename_i t1 hoc
                      refine ih _ _ _ _ h (by omega) ?_ ?_
                      · rw [hline, count_take_succ_ne src pos hlt hnl]
                      · intro t ht
                        rcases List.mem_append.mp ht with h1 | h1
                        · exact hacc t h1
                        · rw [List.mem_singleton.mp h1]
                          refine ⟨hline, le_of_lt hlt,
                            Or.inl ⟨String.mk [src.get ⟨pos, hlt⟩], rfl,
                              oneCharOp_type_ne _ _ hoc, ?_⟩⟩
                          show BootLexer.sliceL src pos (pos + 1) = [src.get ⟨pos, hlt⟩]
                          exact sliceL_singleton src pos hlt
                    · simp at h

/-- C6 counterexample: on the source x = "hi" the STRING token is glued
at line 1, column 5 (the opening quote), but its stored text is the inner
hi without the quotes, so the contiguous substring of the source of the
text length starting at that position is the two characters quote-h, not
the token text. -/
theorem c6_counterexample_string_token_text :
    bootTokenize "x = \"hi\"" = .ok
      [⟨"IDENTIFIER", .str "x", 1, 1⟩, ⟨"ASSIGN", .str "=", 1, 3⟩,
       ⟨"STRING", .str "hi", 1, 5⟩, ⟨"EOF", .str "<eof>", 1, 0⟩] ∧
    substrAt "x = \"hi\"" 1 5 2 = "\"h" := ⟨rfl, rfl⟩

set_option maxHeartbeats 800000 in
/-- C6 (amended): for every source the bootstrap lexer accepts and every
non-EOF token it emits, the source text at the token line and column
determines the token: a token carrying a string value other than STRING
reads back verbatim as the contiguous substring of its own length
starting at character position column of line line; for a STRING token
the substring of the value length plus two starting there is the value
surrounded by the two quote characters (the stored value strips the
quotes while column still points at the opening quote); for a NUMBER
token some positive-length substring starting there evaluates under the
number rule to the stored numeric value (the text itself is replaced by
the converted number). -/
theorem c6_token_substring (source : String) (toks : List GluedTok)
    (h : bootTokenize source = .ok toks) :
    ∀ t ∈ toks, t.type ≠ "EOF" →
      (∀ s, t.value = .str s → t.type ≠ "STRING" →
        substrAt source t.lineno t.column s.length = s) ∧
      (∀ s, t.value = .str s → t.type = "STRING" →
        substrAt source t.lineno t.column (s.length + 2) = "\"" ++ s ++ "\"") ∧
      (∀ v, t.value = .num v →
        ∃ len, 0 < len ∧
          BootLexer.pyNumber (substrAt source t.lineno t.column len) = v) := by
  intro t ht hteof
  unfold bootTokenize at h
  rcases hp : plyLex source with e | rts
  · rw [hp] at h
    simp [Except.map] at h
  · rw [hp] at h
    simp only [Except.map, Except.ok.injEq] at h
    subst h
    rcases List.mem_append.mp ht with h1 | h1
    · obtain ⟨rt, hrt, heq⟩ := List.mem_map.mp h1
      subst heq
      unfold plyLex at hp
      have hraw := plyGo_tokens_ok source.toList (source.length + 1) 0 1 [] rts hp
        (Nat.zero_le _) (by simp) (by intro t2 ht2; exact absurd ht2 (List.not_mem_nil t2))
        rt hrt
      obtain ⟨hln, hle, hdis⟩ := hraw
      have hpos : posOf source.toList rt.lineno
          (computeColumn source.toList rt.lexpos) = rt.lexpos := by
        rw [hln]
        exact posOf_computeColumn source.toList rt.lexpos hle
      dsimp only
      refine ⟨?_, ?_, ?_⟩
      · intro s hs hstr
        rcases hdis with ⟨s2, hv2, ht2, hsl⟩ | ⟨s2, hv2, ht2, hsl⟩ |
          ⟨v2, len2, hv2, hl2, hnum⟩
        · have hs2 : s2 = s := by
            have hx : BootLexer.BValue.str s2 = .str s := by
              rw [← hv2]
              exact hs
            injection hx
          subst hs2
          unfold substrAt
          rw [hpos, hsl]
          rcases s2 with ⟨d⟩
          rfl
        · exact absurd ht2 hstr
        · rw [hv2] at hs
          exact BootLexer.BValue.noConfusion hs
      · intro s hs hstr
        rcases hdis with ⟨s2, hv2, ht2, hsl⟩ | ⟨s2, hv2, ht2, hsl⟩ |
          ⟨v2, len2, hv2, hl2, hnum⟩
        · exact absurd hstr ht2
        · have hs2 : s2 = s := by
            have hx : BootLexer.BValue.str s2 = .str s := by
              rw [← hv2]
              exact hs
            injection hx
          subst hs2
          unfold substrAt
          rw [hpos, hsl]
          rcases s2 with ⟨d⟩
          rfl
        · rw [hv2] at hs
          exact BootLexer.BValue.noConfusion hs
      · intro v hv
        rcases hdis with ⟨s2, hv2, ht2, hsl⟩ | ⟨s2, hv2, ht2, hsl⟩ |
          ⟨v2, len2, hv2, hl2, hnum⟩
        · rw [hv2] at hv
          exact BootLexer.BValue.noConfusion hv
        · rw [hv2] at hv
          exact BootLexer.BValue.noConfusion hv
        · have hv3 : v2 = v := by
            have hx : BootLexer.BValue.num v2 = .num v := by
              rw [← hv2]
              exact hv
            injection hx
          subst hv3
          refine ⟨len2, hl2, ?_⟩
          unfold substrAt
          rw [hpos]
          exact hnum
    · rw [List.mem_singleton.mp h1] at hteof
      exact absurd rfl hteof

/-- Witness for C6 at a concrete source: the identifier token of x = 42
sits at line 1 column 1 and its text x reads back from the source there. -/
theorem c6_token_substring_witness :
    substrAt "x = 42" 1 1 1 = "x" :=
  (c6_token_substring "x = 42"
      [⟨"IDENTIFIER", .str "x", 1, 1⟩, ⟨"ASSIGN", .str "=", 1, 3⟩,
       ⟨"NUMBER", .num 42, 1, 5⟩, ⟨"EOF", .str "<eof>", 1, 0⟩] rfl
      ⟨"IDENTIFIER", .str "x", 1, 1⟩ (List.Mem.head _) (by decide)).1
    "x" rfl (by decide)

/-- C9: in the self-hosted lexer, the accidental bracketing of the
line-comment condition makes any character that is followed by a slash
start a line comment.  On the input "+/" the whole line is discarded and
no token is produced, where a correct lexer emits PLUS and DIVIDE; the
same two characters separated by a space lex as PLUS and DIVIDE, showing
the branch at fault.  A line comment is therefore not consumed exactly
when the current character is a slash followed by a slash. -/
theorem c9_line_comment_misfires :
    sailfinLex "+/" = .ok [] ∧
    sailfinLex "+ /" = .ok [⟨"PLUS", "+", 1⟩, ⟨"DIVIDE", "/", 1⟩] := by
  exact ⟨rfl, rfl⟩


end Sailfin
